import Mathlib

/-!
Verification of the protocol engine of the pyRFIDreader repository
(sparkfun_rfid/rfid_reader.py): CRC engine, frame codec, transaction
engine, response classifier and memory-bank read operations, shallowly
embedded over byte lists (bytes are Nat values below 256).

The repository file constants.py is not present under src/; the constant
values used below are therefore modelled from the specification, as noted
on each definition.  All algorithmic definitions are translated from
rfid_reader.py.
-/

set_option maxRecDepth 100000

namespace PyRFID

/-- Modelled from the spec: constants.py is absent from src/.  The fixed
16-entry ThingMagic CRC lookup table used by calculate_crc (spec section 4.1:
a fixed 16-entry lookup table, vendor-specific nibble-wise CRC). -/
def CRC_TABLE : List Nat :=
  [0x0000, 0x1021, 0x2042, 0x3063, 0x4084, 0x50A5, 0x60C6, 0x70E7,
   0x8108, 0x9129, 0xA14A, 0xB16B, 0xC18C, 0xD1AD, 0xE1CE, 0xF1EF]

/-- Modelled from the spec: constants.py is absent from src/.  Spec section 6
states that the receive-side convention reserves len + 7 bytes in the working
buffer for a one-byte len field, hence a capacity of 255 + 7 = 262. -/
def MAX_MSG_SIZE : Nat := 262

/-- Modelled from the spec: constants.py is absent from src/.  Spec section 6:
byte 0 of the response area encodes transaction health, 0xFF meaning all-good. -/
def ALL_GOOD : Nat := 0xFF

/-- Modelled from the spec: constants.py is absent from src/.  A local error
code distinct from ALL_GOOD (spec section 6). -/
def ERROR_COMMAND_RESPONSE_TIMEOUT : Nat := 1

/-- Modelled from the spec: constants.py is absent from src/.  A local error
code distinct from ALL_GOOD (spec section 6). -/
def ERROR_CORRUPT_RESPONSE : Nat := 2

/-- Modelled from the spec: constants.py is absent from src/.  A local error
code distinct from ALL_GOOD (spec section 6). -/
def ERROR_WRONG_OPCODE_RESPONSE : Nat := 3

/-- Modelled from the spec: constants.py is absent from src/.  A local error
code distinct from ALL_GOOD (spec section 6). -/
def ERROR_UNKNOWN_OPCODE : Nat := 4

/-- Modelled from the spec: constants.py is absent from src/.  Distinct
classifier result code (spec section 4.4). -/
def RESPONSE_IS_TEMPERATURE : Nat := 5

/-- Modelled from the spec: constants.py is absent from src/.  Distinct
classifier result code (spec section 4.4). -/
def RESPONSE_IS_KEEPALIVE : Nat := 6

/-- Modelled from the spec: constants.py is absent from src/.  Distinct
classifier result code (spec section 4.4). -/
def RESPONSE_IS_TEMPTHROTTLE : Nat := 7

/-- Modelled from the spec: constants.py is absent from src/.  Distinct
classifier result code (spec section 4.4). -/
def RESPONSE_IS_TAGFOUND : Nat := 8

/-- Modelled from the spec: constants.py is absent from src/.  Distinct
classifier result code (spec section 4.4). -/
def RESPONSE_IS_UNKNOWN : Nat := 10

/-- Modelled from the spec: constants.py is absent from src/.  Distinct
classifier result code (spec section 4.4). -/
def RESPONSE_IS_HIGHRETURNLOSS : Nat := 11

/-- Modelled from the spec: constants.py is absent from src/.  Distinct
result code for memory-bank operations (spec section 4.5). -/
def RESPONSE_SUCCESS : Nat := 12

/-- Modelled from the spec: constants.py is absent from src/.  Distinct
result code for memory-bank operations (spec section 4.5). -/
def RESPONSE_FAIL : Nat := 13

/-- Modelled from the spec: constants.py is absent from src/.  The
read-multiple-tag-IDs opcode of the ThingMagic opcode map (spec section 4.4);
the value 0x22 also appears inside the continuous-read configuration blob in
rfid_reader.py. -/
def TMR_SR_OPCODE_READ_TAG_ID_MULTIPLE : Nat := 0x22

/-- Modelled from the spec: constants.py is absent from src/.  The
read-tag-data opcode of the ThingMagic opcode map (spec section 4.5). -/
def TMR_SR_OPCODE_READ_TAG_DATA : Nat := 0x28

/-- Modelled from the spec: constants.py is absent from src/.  The
set-read-TX-power opcode of the ThingMagic opcode map. -/
def TMR_SR_OPCODE_SET_READ_TX_POWER : Nat := 0x92

/-- One nibble-pair step of calculate_crc: the body of the for-loop in
rfid_reader.py lines 688-692, processing one input byte as two 4-bit
nibbles, high nibble first. -/
def crcStep (crc byte : Nat) : Nat :=
  let crc1 := (((crc <<< 4) ||| (byte >>> 4)) ^^^ CRC_TABLE.getD (crc >>> 12) 0) &&& 0xFFFF
  (((crc1 <<< 4) ||| (byte &&& 0x0F)) ^^^ CRC_TABLE.getD (crc1 >>> 12) 0) &&& 0xFFFF

/-- rfid_reader.py calculate_crc (lines 675-694): register seeded at 0xFFFF,
one crcStep per input byte. -/
def calculate_crc (data : List Nat) : Nat :=
  data.foldl crcStep 0xFFFF

theorem and_ffff_lt (x : Nat) : x &&& 0xFFFF < 65536 := by
  have h : x &&& 0xFFFF = x % 65536 := Nat.and_pow_two_sub_one_eq_mod x 16
  rw [h]
  exact Nat.mod_lt _ (by norm_num)

theorem crcStep_lt (crc byte : Nat) : crcStep crc byte < 65536 := by
  unfold crcStep
  exact and_ffff_lt _

theorem foldl_crcStep_lt (l : List Nat) (a : Nat) (ha : a < 65536) :
    l.foldl crcStep a < 65536 := by
  induction l generalizing a with
  | nil => simpa using ha
  | cons b t ih => exact ih _ (crcStep_lt a b)

theorem calculate_crc_lt (data : List Nat) : calculate_crc data < 65536 :=
  foldl_crcStep_lt data 0xFFFF (by norm_num)

theorem calculate_crc_append (x y : List Nat) :
    calculate_crc (x ++ y) = y.foldl crcStep (calculate_crc x) := by
  simp [calculate_crc, List.foldl_append]

/-- Python exception kinds raised by the byte-level operations the source
uses: bytearray element assignment and int.to_bytes. -/
inductive PyErr
  | valueError
  | indexError
  | overflowError
deriving DecidableEq

/-- Assignment msg[i] = v on a Python bytearray: IndexError when the index is
out of range, ValueError when the value does not fit in a byte. -/
def setByte (l : List Nat) (i v : Nat) : Except PyErr (List Nat) :=
  if l.length ≤ i then .error .indexError
  else if 256 ≤ v then .error .valueError
  else .ok (l.set i v)

/-- Python bytearray construction from a list of ints: ValueError unless every
element fits in a byte. -/
def mk_bytearray (l : List Nat) : Except PyErr (List Nat) :=
  if l.all (· < 256) then .ok l else .error .valueError

/-- The data-copy loop of send_message (rfid_reader.py lines 580-581):
msg[i + x] = data[x]. -/
def storeData (msg : List Nat) (i : Nat) : List Nat → Except PyErr (List Nat)
  | [] => .ok msg
  | b :: rest => do
      let m ← setByte msg i b
      storeData m (i + 1) rest

/-- The response-reading loop of send_command (rfid_reader.py lines 634-651).
The transport bytes that arrive before the timeout elapses are the list avail;
exhausting avail before the frame is complete models the timeout.  After the
byte at index 1 is stored, the expected total length becomes msg[1] + 7. -/
def recv_loop (msg : List Nat) (spot ml : Nat) (avail : List Nat) :
    Except PyErr (Option (List Nat)) :=
  if spot < ml then
    match avail with
    | [] => .ok none
    | b :: rest => do
        let m ← setByte msg spot b
        recv_loop m (spot + 1) (if spot = 1 then m.getD 1 0 + 7 else ml) rest
  else .ok (some msg)

/-- rfid_reader.py send_command (lines 585-673).  The serial port is modelled
by hasPort (serial_port is not None) and avail (the response bytes that arrive
before the timeout).  Returns the final message buffer and the bytes written
to the transport. -/
def send_command (msg : List Nat) (hasPort wait_for_response : Bool)
    (avail : List Nat) : Except PyErr (List Nat × List Nat) := do
  let m0 ← setByte msg 0 0xFF
  let message_length := m0.getD 1 0
  let opcode := m0.getD 2 0
  let crc := calculate_crc ((m0.drop 1).take (message_length + 2))
  let m1 ← setByte m0 (message_length + 3) (crc >>> 8)
  let m2 ← setByte m1 (message_length + 4) (crc &&& 0xFF)
  if !hasPort then return (m2, [])
  let written := m2.take (message_length + 5)
  if !wait_for_response then return (m2, written)
  match ← recv_loop m2 0 (MAX_MSG_SIZE - 1) avail with
  | none => do
      let m3 ← setByte m2 0 ERROR_COMMAND_RESPONSE_TIMEOUT
      return (m3, written)
  | some mr =>
      let rml := mr.getD 1 0 + 7
      let crc2 := calculate_crc ((mr.drop 1).take (rml - 3))
      if mr.getD (rml - 2) 0 ≠ (crc2 >>> 8) ∨ mr.getD (rml - 1) 0 ≠ (crc2 &&& 0xFF) then do
        let m3 ← setByte mr 0 ERROR_CORRUPT_RESPONSE
        return (m3, written)
      else if mr.getD 2 0 ≠ opcode then do
        let m3 ← setByte mr 0 ERROR_WRONG_OPCODE_RESPONSE
        return (m3, written)
      else do
        let m3 ← setByte mr 0 ALL_GOOD
        return (m3, written)

/-- rfid_reader.py send_message (lines 564-583): store the length byte, the
opcode and the payload into the working buffer, then send_command. -/
def send_message (msg : List Nat) (hasPort wait_for_response : Bool)
    (opcode : Nat) (data : List Nat) (avail : List Nat) :
    Except PyErr (List Nat × List Nat) := do
  let m0 ← setByte msg 1 data.length
  let m1 ← setByte m0 2 opcode
  let m2 ← storeData m1 3 data
  send_command m2 hasPort wait_for_response avail

/-- Result of one invocation of check: the updated buffer, the updated cursor,
the transport bytes not yet consumed, and the return value. -/
structure CheckResult where
  msg : List Nat
  head : Nat
  remaining : List Nat
  complete : Bool
deriving DecidableEq

/-- The zeroing loop of check (rfid_reader.py lines 275-276): msg[x] = 0 for
x in range(i, MAX_MSG_SIZE), on a buffer of length MAX_MSG_SIZE. -/
def zeroFrom (msg : List Nat) (i : Nat) : List Nat :=
  msg.take i ++ List.replicate (msg.length - i) 0

/-- The while-loop of check (rfid_reader.py lines 258-285), consuming the
bytes the transport currently has buffered. -/
def check_loop (msg : List Nat) (head : Nat) (avail : List Nat) : CheckResult :=
  match avail with
  | [] => ⟨msg, head, [], false⟩
  | b :: rest =>
    if head = 0 ∧ b ≠ 0xFF then check_loop msg head rest
    else
      let m := msg.set head b
      let h := (head + 1) % MAX_MSG_SIZE
      if 0 < h ∧ h = m.getD 1 0 + 7 then ⟨zeroFrom m h, 0, rest, true⟩
      else check_loop m h rest

/-- rfid_reader.py check (lines 248-285). -/
def check (msg : List Nat) (head : Nat) (hasPort : Bool) (avail : List Nat) :
    CheckResult :=
  if !hasPort || avail.isEmpty then ⟨msg, head, avail, false⟩
  else check_loop msg head avail

/-- rfid_reader.py parse_response (lines 484-522). -/
def parse_response (msg : List Nat) : Nat :=
  let msg_length := msg.getD 1 0 + 7
  let opcode := msg.getD 2 0
  let message_crc := calculate_crc ((msg.drop 1).take (msg_length - 3))
  if msg.getD (msg_length - 2) 0 ≠ (message_crc >>> 8) ∨
      msg.getD (msg_length - 1) 0 ≠ (message_crc &&& 0xFF) then
    ERROR_CORRUPT_RESPONSE
  else if opcode = TMR_SR_OPCODE_READ_TAG_ID_MULTIPLE then
    if msg.getD 1 0 = 0x00 then
      let status_msg := (msg.getD 3 0 <<< 8) ||| msg.getD 4 0
      if status_msg = 0x0400 then RESPONSE_IS_KEEPALIVE
      else if status_msg = 0x0504 then RESPONSE_IS_TEMPTHROTTLE
      else if status_msg = 0x0505 then RESPONSE_IS_HIGHRETURNLOSS
      else RESPONSE_IS_UNKNOWN
    else if msg.getD 1 0 = 0x08 then RESPONSE_IS_UNKNOWN
    else if msg.getD 1 0 = 0x0A then RESPONSE_IS_TEMPERATURE
    else RESPONSE_IS_TAGFOUND
  else ERROR_UNKNOWN_OPCODE

/-- rfid_reader.py get_tag_data_bytes (lines 534-542). -/
def get_tag_data_bytes (msg : List Nat) : Nat :=
  let tag_data_length := (msg.getD 24 0 <<< 8) ||| msg.getD 25 0
  let tag_data_bytes := tag_data_length / 8
  if tag_data_length % 8 > 0 then tag_data_bytes + 1 else tag_data_bytes

/-- rfid_reader.py get_tag_epc_bytes (lines 524-532). -/
def get_tag_epc_bytes (msg : List Nat) : Int :=
  let tag_data_bytes := get_tag_data_bytes msg
  let epc_bits := (msg.getD (27 + tag_data_bytes) 0 <<< 8) ||| msg.getD (28 + tag_data_bytes) 0
  (↑(epc_bits / 8) : Int) - 4

/-- rfid_reader.py get_tag_timestamp (lines 544-550), the 4-iteration
or-accumulation loop written out. -/
def get_tag_timestamp (msg : List Nat) : Nat :=
  (List.range 4).foldl (fun timestamp x => timestamp ||| (msg.getD (17 + x) 0 <<< (8 * (3 - x)))) 0

/-- rfid_reader.py get_tag_freq (lines 552-558), the 3-iteration
or-accumulation loop written out. -/
def get_tag_freq (msg : List Nat) : Nat :=
  (List.range 3).foldl (fun freq x => freq ||| (msg.getD (14 + x) 0 <<< (8 * (2 - x)))) 0

/-- rfid_reader.py get_tag_rssi (lines 560-562): msg[12] - 256 as a Python
int. -/
def get_tag_rssi (msg : List Nat) : Int :=
  (↑(msg.getD 12 0) : Int) - 256

/-- rfid_reader.py read_data (lines 375-413): build the fixed-format payload,
send it with the read-tag-data opcode, then decode the typed result from the
response buffer.  Returns ((code, data), final buffer, written bytes). -/
def read_data (msg : List Nat) (hasPort : Bool) (bank address timeout : Nat)
    (avail : List Nat) : Except PyErr ((Nat × List Nat) × List Nat × List Nat) := do
  let data ← mk_bytearray
    [(timeout >>> 8) &&& 0xFF, timeout &&& 0xFF, 0x10, 0x00, 0x00, bank,
     (address >>> 24) &&& 0xFF, (address >>> 16) &&& 0xFF,
     (address >>> 8) &&& 0xFF, address &&& 0xFF, 0x00]
  let (m, w) ← send_message msg hasPort true TMR_SR_OPCODE_READ_TAG_DATA data avail
  if m.getD 0 0 = ALL_GOOD then
    let status := (m.getD 3 0 <<< 8) ||| m.getD 4 0
    if status = 0x0000 then
      let response_length := m.getD 1 0 - 3
      let rd := (m.drop 8).take response_length
      return ((RESPONSE_SUCCESS, rd), m, w)
    else
      return ((RESPONSE_FAIL, []), m, w)
  else
    return ((RESPONSE_FAIL, []), m, w)

/-- Python int.to_bytes(2, big, signed=True): OverflowError outside the
signed 16-bit range, otherwise the two bytes of the value mod 2^16,
big-endian. -/
def int_to_bytes2_signed (x : Int) : Except PyErr (List Nat) :=
  if x < -32768 ∨ 32767 < x then .error .overflowError
  else .ok [(x % 65536).toNat >>> 8, (x % 65536).toNat % 256]

/-- rfid_reader.py set_read_power (lines 89-101): clamp to 2700, encode as a
2-byte big-endian signed value, send with the set-read-TX-power opcode. -/
def set_read_power (msg : List Nat) (hasPort : Bool) (power_setting : Int)
    (avail : List Nat) : Except PyErr (List Nat × List Nat) := do
  let p := if power_setting > 2700 then 2700 else power_setting
  let data ← int_to_bytes2_signed p
  send_message msg hasPort true TMR_SR_OPCODE_SET_READ_TX_POWER data avail

/-- The wire frame for an opcode and a payload, as the specification words
it (spec section 4.2 Encode): header 0xFF, length byte, opcode, payload,
then the big-endian CRC over [length, opcode, payload].  This is the
claim-side description, to be compared with what send_message writes. -/
def wire_frame (opcode : Nat) (p : List Nat) : List Nat :=
  [0xFF, p.length, opcode] ++ p ++
    [calculate_crc ([p.length, opcode] ++ p) >>> 8,
     calculate_crc ([p.length, opcode] ++ p) &&& 0xFF]

/-- The CRC the receive side recomputes over a response: all bytes of the
frame except the header and the two trailing CRC bytes (a response frame is
avail[1] + 7 bytes long, so this covers avail[1 .. avail[1] + 4]). -/
def respCrc (avail : List Nat) : Nat :=
  calculate_crc ((avail.drop 1).take (avail.getD 1 0 + 4))

/-- The outcome cascade of one wait-for-response transaction, as the claim
words it: timeout before a complete frame, then CRC comparison, then opcode
comparison, then success. -/
def transaction_outcome (reqOpcode : Nat) (avail : List Nat) : Nat :=
  if avail.length < avail.getD 1 0 + 7 then ERROR_COMMAND_RESPONSE_TIMEOUT
  else if avail.getD (avail.getD 1 0 + 5) 0 ≠ (respCrc avail >>> 8) ∨
      avail.getD (avail.getD 1 0 + 6) 0 ≠ (respCrc avail &&& 0xFF) then ERROR_CORRUPT_RESPONSE
  else if avail.getD 2 0 ≠ reqOpcode then ERROR_WRONG_OPCODE_RESPONSE
  else ALL_GOOD

section Helpers

theorem setByte_ok {l : List Nat} {i v : Nat} (hi : i < l.length) (hv : v < 256) :
    setByte l i v = .ok (l.set i v) := by
  unfold setByte
  rw [if_neg (by omega), if_neg (by omega)]

theorem getD_set_ne (l : List Nat) {i j : Nat} (a : Nat) (h : i ≠ j) :
    (l.set i a).getD j 0 = l.getD j 0 := by
  simp [List.getD_eq_getElem?_getD, List.getElem?_set_ne h]

theorem getD_set_self (l : List Nat) {i : Nat} (a : Nat) (h : i < l.length) :
    (l.set i a).getD i 0 = a := by
  simp [List.getD_eq_getElem?_getD, List.getElem?_set_eq_of_lt _ h]

theorem getD_replicate_zero (n j : Nat) : (List.replicate n (0 : Nat)).getD j 0 = 0 := by
  simp only [List.getD_eq_getElem?_getD, List.getElem?_replicate]
  split <;> rfl

theorem getD_append_left (l1 l2 : List Nat) {j : Nat} (h : j < l1.length) :
    (l1 ++ l2).getD j 0 = l1.getD j 0 := by
  simp [List.getD_eq_getElem?_getD, List.getElem?_append, h]

theorem getD_append_right_off (l1 l2 : List Nat) (k : Nat) :
    (l1 ++ l2).getD (l1.length + k) 0 = l2.getD k 0 := by
  simp only [List.getD_eq_getElem?_getD]
  rw [List.getElem?_append_right (by omega), Nat.add_sub_cancel_left]

theorem getD_lt_256 {l : List Nat} (hb : ∀ b ∈ l, b < 256) (j : Nat) :
    l.getD j 0 < 256 := by
  by_cases h : j < l.length
  · rw [List.getD_eq_getElem l 0 h]
    exact hb _ (List.getElem_mem h)
  · rw [List.getD_eq_default l 0 (by omega)]
    omega

theorem take_set_succ (l : List Nat) {i : Nat} (a : Nat) (h : i < l.length) :
    (l.set i a).take (i + 1) = l.take i ++ [a] := by
  rw [List.set_eq_take_cons_drop a h]
  rw [show i + 1 = (l.take i).length + 1 by simp [List.length_take]; omega]
  rw [List.take_append]
  simp

theorem drop_set_of_lt (l : List Nat) {i j : Nat} (a : Nat) (h : i < j) :
    (l.set i a).drop j = l.drop j := by
  apply List.ext_getElem?
  intro n
  rw [List.getElem?_drop, List.getElem?_drop, List.getElem?_set_ne (by omega)]

theorem set_append_right_off (l1 l2 : List Nat) (k a : Nat) :
    (l1 ++ l2).set (l1.length + k) a = l1 ++ l2.set k a := by
  induction l1 with
  | nil => simp
  | cons x xs ih => simp [List.set, Nat.succ_add, ih]

theorem lor_two_pow_mul_add : ∀ (k x c : Nat), c < 2 ^ k → ((2 ^ k * x) ||| c) = 2 ^ k * x + c := by
  intro k
  induction k with
  | zero =>
    intro x c hc
    interval_cases c
    simp
  | succ k ih =>
    intro x c hc
    have hd : c / 2 < 2 ^ k := by omega
    have h2 : (2 : Nat) ^ (k + 1) * x = 2 * (2 ^ k * x) := by ring
    rcases Nat.even_or_odd c with he | ho
    · have hc0 : c % 2 = 0 := Nat.even_iff.mp he
      have hb : (2 ^ (k + 1) * x) ||| c = Nat.bit false (2 ^ k * x) ||| Nat.bit false (c / 2) := by
        simp only [Nat.bit, cond_false, h2]
        congr 1
        omega
      rw [hb, Nat.lor_bit]
      simp only [Nat.bit, Bool.or_self, cond_false, ih x (c / 2) hd]
      omega
    · have hc1 : c % 2 = 1 := Nat.odd_iff.mp ho
      have hb : (2 ^ (k + 1) * x) ||| c = Nat.bit false (2 ^ k * x) ||| Nat.bit true (c / 2) := by
        simp only [Nat.bit, cond_false, cond_true, h2]
        congr 1
        omega
      rw [hb, Nat.lor_bit]
      simp only [Nat.bit, Bool.false_or, cond_true, ih x (c / 2) hd]
      omega

theorem lor_add_of_dvd (k : Nat) {x c : Nat} (hd : 2 ^ k ∣ x) (hc : c < 2 ^ k) :
    x ||| c = x + c := by
  obtain ⟨m, rfl⟩ := hd
  exact lor_two_pow_mul_add k m c hc

theorem shiftLeft8_or (a b : Nat) (hb : b < 256) : (a <<< 8) ||| b = 256 * a + b := by
  rw [Nat.shiftLeft_eq]
  rw [lor_add_of_dvd 8 ⟨a, by ring⟩ (by omega)]
  omega

theorem and_ff_eq_mod (x : Nat) : x &&& 0xFF = x % 256 := Nat.and_pow_two_sub_one_eq_mod x 8

theorem and_ff_lt (x : Nat) : x &&& 0xFF < 256 := by
  rw [and_ff_eq_mod]
  exact Nat.mod_lt _ (by norm_num)

theorem shiftRight8_lt (x : Nat) (h : x < 65536) : x >>> 8 < 256 := by
  rw [Nat.shiftRight_eq_div_pow]
  omega

theorem storeData_ok : ∀ (p msg : List Nat) (i : Nat),
    i + p.length ≤ msg.length → (∀ b ∈ p, b < 256) →
    storeData msg i p = .ok (msg.take i ++ p ++ msg.drop (i + p.length)) := by
  intro p
  induction p with
  | nil =>
    intro msg i _ _
    simp [storeData]
  | cons b rest ih =>
    intro msg i hlen hb
    have hi : i < msg.length := by
      simp only [List.length_cons] at hlen
      omega
    have hv : b < 256 := hb b (by simp)
    rw [storeData, setByte_ok hi hv]
    show storeData (msg.set i b) (i + 1) rest = _
    rw [ih (msg.set i b) (i + 1) (by simp only [List.length_set, List.length_cons] at hlen ⊢; omega)
      (fun x hx => hb x (by simp [hx]))]
    rw [take_set_succ msg b hi, drop_set_of_lt msg b (by omega)]
    have harith : i + 1 + rest.length = i + (b :: rest).length := by simp; omega
    rw [harith]
    simp

theorem exists_cons2 : ∀ (l : List Nat), 2 ≤ l.length → ∃ a b t, l = a :: b :: t
  | a :: b :: t, _ => ⟨a, b, t, rfl⟩

theorem exists_cons3 : ∀ (l : List Nat), 3 ≤ l.length → ∃ a b c t, l = a :: b :: c :: t
  | a :: b :: c :: t, _ => ⟨a, b, c, t, rfl⟩

theorem zeroFrom_length (l : List Nat) (i : Nat) (h : i ≤ l.length) :
    (zeroFrom l i).length = l.length := by
  simp [zeroFrom, List.length_take]
  omega

theorem zeroFrom_getD_lt (l : List Nat) {i j : Nat} (h : j < i) :
    (zeroFrom l i).getD j 0 = l.getD j 0 := by
  unfold zeroFrom
  by_cases hj : j < l.length
  · rw [getD_append_left _ _ (by simp [List.length_take]; omega)]
    simp [List.getD_eq_getElem?_getD, List.getElem?_take, h]
  · rw [List.getD_eq_default _ _ (by simp [List.length_take]; omega),
      List.getD_eq_default _ _ (by omega)]

theorem zeroFrom_getD_ge (l : List Nat) {i j : Nat} (h : i ≤ j) :
    (zeroFrom l i).getD j 0 = 0 := by
  unfold zeroFrom
  by_cases hj : j < (l.take i).length
  · simp [List.length_take] at hj
    omega
  · by_cases hj2 : j - (l.take i).length < l.length - i
    · rw [List.getD_eq_getElem?_getD, List.getElem?_append_right (by omega)]
      simp only [List.getElem?_replicate, hj2, if_true]
      rfl
    · rw [List.getD_eq_default]
      simp only [List.length_append, List.length_take, List.length_replicate] at *
      omega

end Helpers

section RecvLoop

theorem recv_loop_nil (msg : List Nat) (spot ml : Nat) (h : spot < ml) :
    recv_loop msg spot ml [] = .ok none := by
  rw [recv_loop.eq_def, if_pos h]

theorem recv_loop_stop (msg : List Nat) (spot ml : Nat) (avail : List Nat) (h : ¬ spot < ml) :
    recv_loop msg spot ml avail = .ok (some msg) := by
  rw [recv_loop.eq_def, if_neg h]

theorem recv_loop_cons (msg : List Nat) (spot ml b : Nat) (rest : List Nat)
    (h : spot < ml) (hi : spot < msg.length) (hv : b < 256) :
    recv_loop msg spot ml (b :: rest) =
      recv_loop (msg.set spot b) (spot + 1)
        (if spot = 1 then (msg.set spot b).getD 1 0 + 7 else ml) rest := by
  rw [recv_loop.eq_def, if_pos h]
  show setByte msg spot b >>= _ = _
  rw [setByte_ok hi hv]
  rfl

theorem recv_phase_incomplete : ∀ (avail msg : List Nat) (spot ml : Nat),
    msg.length = MAX_MSG_SIZE → 2 ≤ spot →
    (∀ b ∈ avail, b < 256) → spot + avail.length < ml → ml ≤ MAX_MSG_SIZE →
    recv_loop msg spot ml avail = .ok none := by
  intro avail
  induction avail with
  | nil =>
    intro msg spot ml hm hs hb hlt hml
    exact recv_loop_nil _ _ _ (by simp at hlt; omega)
  | cons b rest ih =>
    intro msg spot ml hm hs hb hlt hml
    simp only [List.length_cons] at hlt
    rw [recv_loop_cons msg spot ml b rest (by omega) (by omega) (hb b (by simp))]
    rw [if_neg (by omega)]
    exact ih _ _ _ (by simp [hm]) (by omega) (fun x hx => hb x (by simp [hx])) (by omega) hml

theorem recv_phase_complete : ∀ (avail msg : List Nat) (spot ml : Nat),
    msg.length = MAX_MSG_SIZE → 2 ≤ spot → spot ≤ ml →
    (∀ b ∈ avail, b < 256) → ml - spot ≤ avail.length → ml ≤ MAX_MSG_SIZE →
    recv_loop msg spot ml avail =
      .ok (some (msg.take spot ++ avail.take (ml - spot) ++ msg.drop ml)) := by
  intro avail
  induction avail with
  | nil =>
    intro msg spot ml hm hs hsml hb hge hml
    have hsp : spot = ml := by simp at hge; omega
    subst hsp
    rw [recv_loop_stop _ _ _ _ (by omega)]
    simp
  | cons b rest ih =>
    intro msg spot ml hm hs hsml hb hge hml
    by_cases hstop : spot < ml
    · rw [recv_loop_cons msg spot ml b rest hstop (by omega) (hb b (by simp))]
      rw [if_neg (by omega)]
      rw [ih (msg.set spot b) (spot + 1) ml (by simp [hm]) (by omega) (by omega)
        (fun x hx => hb x (by simp [hx])) (by simp at hge ⊢; omega) hml]
      rw [take_set_succ msg b (by omega), drop_set_of_lt msg b hstop]
      have h1 : ml - spot = (ml - (spot + 1)) + 1 := by omega
      rw [h1, List.take_succ_cons]
      simp
    · have hsp : spot = ml := by omega
      subst hsp
      rw [recv_loop_stop _ _ _ _ (by omega)]
      simp

/-- Running the receive loop from spot 0: the timeout case, when fewer bytes
than one complete frame arrive in time. -/
theorem recv_run_incomplete (msg avail : List Nat) (hm : msg.length = MAX_MSG_SIZE)
    (hb : ∀ b ∈ avail, b < 256) (hshort : avail.length < avail.getD 1 0 + 7) :
    recv_loop msg 0 (MAX_MSG_SIZE - 1) avail = .ok none := by
  have hm2 : msg.length = 262 := by rw [hm]; rfl
  rcases avail with _ | ⟨a0, _ | ⟨a1, rest⟩⟩
  · exact recv_loop_nil _ _ _ (by norm_num [MAX_MSG_SIZE])
  · rw [recv_loop_cons msg 0 _ a0 [] (by norm_num [MAX_MSG_SIZE]) (by omega)
      (hb a0 (by simp)), if_neg (by omega)]
    exact recv_loop_nil _ _ _ (by norm_num [MAX_MSG_SIZE])
  · rw [recv_loop_cons msg 0 _ a0 (a1 :: rest) (by norm_num [MAX_MSG_SIZE]) (by omega)
      (hb a0 (by simp)), if_neg (by omega)]
    rw [recv_loop_cons _ 1 _ a1 rest (by norm_num [MAX_MSG_SIZE])
      (by rw [List.length_set]; omega) (hb a1 (by simp)), if_pos rfl]
    have hg : (((msg.set 0 a0).set 1 a1).getD 1 0) = a1 :=
      getD_set_self _ _ (by rw [List.length_set]; omega)
    rw [hg]
    have ha1 : a1 < 256 := hb a1 (by simp)
    simp only [List.length_cons, List.getD_cons_succ, List.getD_cons_zero] at hshort
    exact recv_phase_incomplete rest _ 2 (a1 + 7)
      (by rw [List.length_set, List.length_set]; exact hm) (by omega)
      (fun x hx => hb x (by simp [hx])) (by omega)
      (by show a1 + 7 ≤ 262; omega)

/-- Running the receive loop from spot 0: the complete case, when at least
msg[1] + 7 bytes arrive in time; the buffer prefix is overwritten with the
response bytes. -/
theorem recv_run_complete (msg avail : List Nat) (hm : msg.length = MAX_MSG_SIZE)
    (hb : ∀ b ∈ avail, b < 256) (hlong : avail.getD 1 0 + 7 ≤ avail.length) :
    recv_loop msg 0 (MAX_MSG_SIZE - 1) avail =
      .ok (some (avail.take (avail.getD 1 0 + 7) ++ msg.drop (avail.getD 1 0 + 7))) := by
  have hm2 : msg.length = 262 := by rw [hm]; rfl
  rcases avail with _ | ⟨a0, _ | ⟨a1, rest⟩⟩
  · simp at hlong
  · simp at hlong
  · simp only [List.length_cons, List.getD_cons_succ, List.getD_cons_zero] at hlong ⊢
    have ha1 : a1 < 256 := hb a1 (by simp)
    rw [recv_loop_cons msg 0 _ a0 (a1 :: rest) (by norm_num [MAX_MSG_SIZE]) (by omega)
      (hb a0 (by simp)), if_neg (by omega)]
    rw [recv_loop_cons _ 1 _ a1 rest (by norm_num [MAX_MSG_SIZE])
      (by rw [List.length_set]; omega) (hb a1 (by simp)), if_pos rfl]
    have hg : (((msg.set 0 a0).set 1 a1).getD 1 0) = a1 :=
      getD_set_self _ _ (by rw [List.length_set]; omega)
    rw [hg]
    rw [recv_phase_complete rest _ 2 (a1 + 7)
      (by rw [List.length_set, List.length_set]; exact hm) (by omega) (by omega)
      (fun x hx => hb x (by simp [hx])) (by omega)
      (by show a1 + 7 ≤ 262; omega)]
    congr 2
    rw [take_set_succ _ a1 (by rw [List.length_set]; omega)]
    rw [take_set_succ msg a0 (by omega)]
    rw [drop_set_of_lt _ a1 (by omega), drop_set_of_lt msg a0 (by omega)]
    have h1 : a1 + 7 - 2 = a1 + 5 := by omega
    have h2 : a1 + 7 = (a1 + 5) + 1 + 1 := by omega
    rw [h1, h2, List.take_succ_cons, List.take_succ_cons]
    simp

end RecvLoop

section SendCommand

theorem ok_bind {α β : Type} (x : α) (f : α → Except PyErr β) :
    (Except.ok x >>= f : Except PyErr β) = f x := rfl

theorem pure_bind_ex {α β : Type} (x : α) (f : α → Except PyErr β) :
    ((pure x : Except PyErr α) >>= f) = f x := rfl

theorem getD_take_lt (l : List Nat) {i j : Nat} (h : j < i) :
    (l.take i).getD j 0 = l.getD j 0 := by
  simp [List.getD_eq_getElem?_getD, List.getElem?_take, h]

/-- The working buffer after the header and CRC attachment of send_command
(lines 594-601): byte 0 set to 0xFF, the CRC of msg[1 : msg[1] + 3] stored
big-endian at msg[msg[1] + 3] and msg[msg[1] + 4]. -/
def encodedBuffer (msg : List Nat) : List Nat :=
  ((msg.set 0 0xFF).set (msg.getD 1 0 + 3)
      (calculate_crc ((msg.drop 1).take (msg.getD 1 0 + 2)) >>> 8)).set
    (msg.getD 1 0 + 4)
    (calculate_crc ((msg.drop 1).take (msg.getD 1 0 + 2)) &&& 0xFF)

theorem encodedBuffer_length (msg : List Nat) :
    (encodedBuffer msg).length = msg.length := by
  simp [encodedBuffer]

/-- send_command on an open port returns without an exception: the written
bytes are the first msg[1] + 5 bytes of the encoded buffer, and when the call
waits for a response, byte 0 of the final buffer records the transaction
outcome cascade. -/
theorem send_command_runs (msg avail : List Nat) (wait : Bool)
    (hm : msg.length = MAX_MSG_SIZE) (hn : msg.getD 1 0 ≤ 255)
    (ha : ∀ b ∈ avail, b < 256) :
    ∃ m, send_command msg true wait avail =
        .ok (m, (encodedBuffer msg).take (msg.getD 1 0 + 5)) ∧
      (wait = true → m.getD 0 0 = transaction_outcome (msg.getD 2 0) avail) := by
  have hm2 : msg.length = 262 := by rw [hm]; rfl
  have hcrc : calculate_crc ((msg.drop 1).take (msg.getD 1 0 + 2)) < 65536 := calculate_crc_lt _
  unfold send_command
  rw [setByte_ok (by omega) (by norm_num), ok_bind]
  simp only [Bool.not_true, Bool.false_eq_true, if_false, ok_bind]
  rw [getD_set_ne msg 255 (show (0 : Nat) ≠ 1 by omega),
    getD_set_ne msg 255 (show (0 : Nat) ≠ 2 by omega),
    drop_set_of_lt msg 255 (by omega)]
  rw [setByte_ok (by rw [List.length_set]; omega) (shiftRight8_lt _ hcrc), ok_bind]
  rw [setByte_ok (by rw [List.length_set, List.length_set]; omega) (and_ff_lt _), ok_bind]
  have henc : ((msg.set 0 255).set (msg.getD 1 0 + 3)
      (calculate_crc ((msg.drop 1).take (msg.getD 1 0 + 2)) >>> 8)).set
      (msg.getD 1 0 + 4)
      (calculate_crc ((msg.drop 1).take (msg.getD 1 0 + 2)) &&& 0xFF) = encodedBuffer msg := rfl
  rw [henc]
  have hel : (encodedBuffer msg).length = 262 := by rw [encodedBuffer_length, hm2]
  have e752 : ∀ k : Nat, k + 7 - 2 = k + 5 := fun k => by omega
  have e761 : ∀ k : Nat, k + 7 - 1 = k + 6 := fun k => by omega
  have e734 : ∀ k : Nat, k + 7 - 3 = k + 4 := fun k => by omega
  cases wait with
  | false =>
    refine ⟨encodedBuffer msg, ?_, by simp⟩
    rfl
  | true =>
    simp only [Bool.not_true, Bool.false_eq_true, if_false, ok_bind, pure_bind_ex]
    by_cases hshort : avail.length < avail.getD 1 0 + 7
    · rw [recv_run_incomplete _ avail (by rw [hel]; rfl) ha hshort]
      simp only [ok_bind, pure_bind_ex]
      rw [setByte_ok (by omega) (by norm_num [ERROR_COMMAND_RESPONSE_TIMEOUT])]
      simp only [ok_bind]
      refine ⟨(encodedBuffer msg).set 0 ERROR_COMMAND_RESPONSE_TIMEOUT, rfl, ?_⟩
      intro _
      rw [getD_set_self _ _ (by omega)]
      rw [transaction_outcome, if_pos hshort]
    · rw [recv_run_complete _ avail (by rw [hel]; rfl) ha (by omega)]
      simp only [ok_bind, pure_bind_ex]
      have hrb : avail.getD 1 0 + 7 ≤ avail.length := by omega
      have ha1 : avail.getD 1 0 < 256 := getD_lt_256 ha 1
      set mr := avail.take (avail.getD 1 0 + 7) ++
        (encodedBuffer msg).drop (avail.getD 1 0 + 7) with hmr
      have hmrlen : mr.length = 262 := by
        rw [hmr, List.length_append, List.length_take, List.length_drop, hel]
        omega
      have hmrget : ∀ j, j < avail.getD 1 0 + 7 → mr.getD j 0 = avail.getD j 0 := by
        intro j hj
        rw [hmr, getD_append_left _ _ (by rw [List.length_take]; omega), getD_take_lt _ hj]
      have hmr1 : mr.getD 1 0 = avail.getD 1 0 := hmrget 1 (by omega)
      have hmr2 : mr.getD 2 0 = avail.getD 2 0 := hmrget 2 (by omega)
      have hslice : (mr.drop 1).take (avail.getD 1 0 + 4) =
          (avail.drop 1).take (avail.getD 1 0 + 4) := by
        rw [hmr]
        rw [List.drop_append_eq_append_drop, List.take_append_eq_append_take]
        have h1 : (List.take (avail.getD 1 0 + 7) avail).length = avail.getD 1 0 + 7 := by
          rw [List.length_take]
          omega
        rw [List.drop_take]
        rw [show (1 : Nat) - (List.take (avail.getD 1 0 + 7) avail).length = 0 by omega]
        have hlen2 : (List.take (avail.getD 1 0 + 7 - 1) (List.drop 1 avail)).length =
            avail.getD 1 0 + 6 := by
          rw [List.length_take, List.length_drop]
          omega
        rw [hlen2, show avail.getD 1 0 + 4 - (avail.getD 1 0 + 6) = 0 by omega]
        simp only [List.take_zero, List.append_nil]
        rw [List.take_take,
          show min (avail.getD 1 0 + 4) (avail.getD 1 0 + 7 - 1) = avail.getD 1 0 + 4 by omega]
      rw [hmr1, e752, e761, e734, hmr2, hslice]
      by_cases hbad : avail.getD (avail.getD 1 0 + 5) 0 ≠ respCrc avail >>> 8 ∨
          avail.getD (avail.getD 1 0 + 6) 0 ≠ respCrc avail &&& 0xFF
      · rw [hmrget (avail.getD 1 0 + 5) (by omega), hmrget (avail.getD 1 0 + 6) (by omega)]
        rw [if_pos (by rw [respCrc] at hbad; exact hbad)]
        rw [setByte_ok (by omega) (by norm_num [ERROR_CORRUPT_RESPONSE])]
        simp only [ok_bind]
        refine ⟨mr.set 0 ERROR_CORRUPT_RESPONSE, rfl, ?_⟩
        intro _
        rw [getD_set_self _ _ (by omega)]
        rw [transaction_outcome, if_neg hshort, if_pos hbad]
      · rw [hmrget (avail.getD 1 0 + 5) (by omega), hmrget (avail.getD 1 0 + 6) (by omega)]
        rw [if_neg (by rw [respCrc] at hbad; exact hbad)]
        by_cases hop : avail.getD 2 0 ≠ msg.getD 2 0
        · rw [if_pos hop]
          rw [setByte_ok (by omega) (by norm_num [ERROR_WRONG_OPCODE_RESPONSE])]
          simp only [ok_bind]
          refine ⟨mr.set 0 ERROR_WRONG_OPCODE_RESPONSE, rfl, ?_⟩
          intro _
          rw [getD_set_self _ _ (by omega)]
          rw [transaction_outcome, if_neg hshort, if_neg hbad, if_pos hop]
        · rw [if_neg hop]
          rw [setByte_ok (by omega) (by norm_num [ALL_GOOD])]
          simp only [ok_bind]
          refine ⟨mr.set 0 ALL_GOOD, rfl, ?_⟩
          intro _
          rw [getD_set_self _ _ (by omega)]
          rw [transaction_outcome, if_neg hshort, if_neg hbad, if_neg hop]

theorem set_cons3 (a b c : Nat) (l : List Nat) (k v : Nat) :
    (a :: b :: c :: l).set (k + 3) v = a :: b :: c :: l.set k v := rfl

theorem take_cons2 (b c : Nat) (l : List Nat) (k : Nat) :
    (b :: c :: l).take (k + 2) = b :: c :: l.take k := rfl

theorem take_cons3 (a b c : Nat) (l : List Nat) (k : Nat) :
    (a :: b :: c :: l).take (k + 3) = a :: b :: c :: l.take k := rfl

/-- send_message on an open port, for a payload that fits the length byte:
the bytes written to the transport are exactly the wire frame of the opcode
and payload, and on a waiting call byte 0 of the final buffer records the
transaction outcome for the request opcode. -/
theorem send_message_runs (msg : List Nat) (o : Nat) (p avail : List Nat) (wait : Bool)
    (hm : msg.length = MAX_MSG_SIZE) (ho : o < 256) (hp : ∀ b ∈ p, b < 256)
    (hl : p.length ≤ 255) (ha : ∀ b ∈ avail, b < 256) :
    ∃ m, send_message msg true wait o p avail = .ok (m, wire_frame o p) ∧
      (wait = true → m.getD 0 0 = transaction_outcome o avail) := by
  have hm2 : msg.length = 262 := by rw [hm]; rfl
  obtain ⟨c0, c1, c2, mt, rfl⟩ := exists_cons3 msg (by omega)
  have hmt : mt.length = 259 := by simp at hm2; omega
  unfold send_message
  rw [setByte_ok (by simp) (by omega), ok_bind]
  simp only [List.set_cons_succ, List.set_cons_zero]
  rw [setByte_ok (by simp) ho, ok_bind]
  simp only [List.set_cons_succ, List.set_cons_zero]
  rw [storeData_ok p _ 3 (by simp; omega) hp, ok_bind]
  have hdrop3 : List.drop (3 + p.length) (c0 :: p.length :: o :: mt) = mt.drop p.length := by
    rw [Nat.add_comm]
    rfl
  rw [hdrop3]
  simp only [List.take_succ_cons, List.take_zero, List.cons_append, List.nil_append]
  obtain ⟨u0, u1, ut, hu⟩ := exists_cons2 (mt.drop p.length)
    (by rw [List.length_drop]; omega)
  rw [hu]
  have hulen : (u0 :: u1 :: ut).length = 259 - p.length := by
    rw [← hu, List.length_drop, hmt]
  obtain ⟨m, hrun, hout⟩ := send_command_runs
    (c0 :: p.length :: o :: (p ++ u0 :: u1 :: ut)) avail wait
    (by
      show (c0 :: p.length :: o :: (p ++ u0 :: u1 :: ut)).length = 262
      simp only [List.length_cons, List.length_append] at hulen ⊢
      omega)
    (by simpa using hl) ha
  rw [hrun]
  have hgd1 : (c0 :: p.length :: o :: (p ++ u0 :: u1 :: ut)).getD 1 0 = p.length := by simp
  have hgd2 : (c0 :: p.length :: o :: (p ++ u0 :: u1 :: ut)).getD 2 0 = o := by simp
  have hcrcarg : ((c0 :: p.length :: o :: (p ++ u0 :: u1 :: ut)).drop 1).take (p.length + 2) =
      [p.length, o] ++ p := by
    simp only [List.drop_succ_cons, List.drop_zero]
    rw [take_cons2]
    rw [List.take_left]
    simp
  have hsetlen : ∀ v : Nat, ∀ u : List Nat, (p ++ u).set p.length v = p ++ u.set 0 v := by
    intro v u
    have h0 := set_append_right_off p u 0 v
    simp only [Nat.add_zero] at h0
    exact h0
  have henc : encodedBuffer (c0 :: p.length :: o :: (p ++ u0 :: u1 :: ut)) =
      255 :: p.length :: o :: (p ++
        (calculate_crc ([p.length, o] ++ p) >>> 8) ::
        (calculate_crc ([p.length, o] ++ p) &&& 0xFF) :: ut) := by
    unfold encodedBuffer
    rw [hgd1, hcrcarg]
    simp only [List.set_cons_zero]
    rw [set_cons3]
    rw [show p.length + 4 = p.length + 1 + 3 from rfl, set_cons3]
    rw [hsetlen, set_append_right_off p _ 1 _]
    simp only [List.set_cons_succ, List.set_cons_zero]
  have hwf : (encodedBuffer (c0 :: p.length :: o :: (p ++ u0 :: u1 :: ut))).take
      ((c0 :: p.length :: o :: (p ++ u0 :: u1 :: ut)).getD 1 0 + 5) = wire_frame o p := by
    rw [henc, hgd1]
    rw [show p.length + 5 = p.length + 2 + 3 from rfl, take_cons3]
    rw [List.take_append]
    simp [wire_frame]
  rw [hwf]
  exact ⟨m, rfl, fun hw => by rw [hout hw, hgd2]⟩

end SendCommand

section CheckLoop

theorem check_loop_nil (msg : List Nat) (head : Nat) :
    check_loop msg head [] = ⟨msg, head, [], false⟩ := by
  simp only [check_loop]

theorem check_loop_discard (msg : List Nat) (b : Nat) (rest : List Nat) (hb : b ≠ 0xFF) :
    check_loop msg 0 (b :: rest) = check_loop msg 0 rest := by
  simp only [check_loop]
  rw [if_pos ⟨trivial, hb⟩]

theorem check_loop_accept (msg : List Nat) (head b : Nat) (rest : List Nat)
    (h : ¬ (head = 0 ∧ b ≠ 0xFF)) :
    check_loop msg head (b :: rest) =
      if 0 < (head + 1) % MAX_MSG_SIZE ∧
          (head + 1) % MAX_MSG_SIZE = (msg.set head b).getD 1 0 + 7 then
        ⟨zeroFrom (msg.set head b) ((head + 1) % MAX_MSG_SIZE), 0, rest, true⟩
      else check_loop (msg.set head b) ((head + 1) % MAX_MSG_SIZE) rest := by
  simp only [check_loop]
  rw [if_neg h]

/-- check_loop only consumes bytes the transport already had: the unconsumed
remainder is a suffix of the input. -/
theorem check_loop_consumes : ∀ (avail msg : List Nat) (head : Nat),
    ∃ pre, avail = pre ++ (check_loop msg head avail).remaining := by
  intro avail
  induction avail with
  | nil =>
    intro msg head
    exact ⟨[], by simp [check_loop_nil]⟩
  | cons b rest ih =>
    intro msg head
    by_cases hd : head = 0 ∧ b ≠ 0xFF
    · obtain ⟨h0, hb⟩ := hd
      subst h0
      rw [check_loop_discard msg b rest hb]
      obtain ⟨pre, hpre⟩ := ih msg 0
      exact ⟨b :: pre, by rw [List.cons_append, ← hpre]⟩
    · rw [check_loop_accept msg head b rest hd]
      by_cases hc : 0 < (head + 1) % MAX_MSG_SIZE ∧
          (head + 1) % MAX_MSG_SIZE = (msg.set head b).getD 1 0 + 7
      · rw [if_pos hc]
        exact ⟨[b], rfl⟩
      · rw [if_neg hc]
        obtain ⟨pre, hpre⟩ := ih (msg.set head b) ((head + 1) % MAX_MSG_SIZE)
        exact ⟨b :: pre, by rw [List.cons_append, ← hpre]⟩

/-- When no frame completes, check_loop has consumed every buffered byte. -/
theorem check_loop_false_consumed : ∀ (avail msg : List Nat) (head : Nat),
    (check_loop msg head avail).complete = false →
    (check_loop msg head avail).remaining = [] := by
  intro avail
  induction avail with
  | nil =>
    intro msg head _
    rw [check_loop_nil]
  | cons b rest ih =>
    intro msg head hf
    by_cases hd : head = 0 ∧ b ≠ 0xFF
    · obtain ⟨h0, hb⟩ := hd
      subst h0
      rw [check_loop_discard msg b rest hb] at hf ⊢
      exact ih msg 0 hf
    · rw [check_loop_accept msg head b rest hd] at hf ⊢
      by_cases hc : 0 < (head + 1) % MAX_MSG_SIZE ∧
          (head + 1) % MAX_MSG_SIZE = (msg.set head b).getD 1 0 + 7
      · rw [if_pos hc] at hf
        simp at hf
      · rw [if_neg hc] at hf ⊢
        exact ih _ _ hf

/-- When a frame completes, the cursor has been reset to 0 and every buffer
byte from position frame-length-byte + 7 on has been zeroed. -/
theorem check_loop_complete_state : ∀ (avail msg : List Nat) (head : Nat),
    (check_loop msg head avail).complete = true →
    (check_loop msg head avail).head = 0 ∧
    (∀ j, (check_loop msg head avail).msg.getD 1 0 + 7 ≤ j →
      (check_loop msg head avail).msg.getD j 0 = 0) := by
  intro avail
  induction avail with
  | nil =>
    intro msg head ht
    rw [check_loop_nil] at ht
    simp at ht
  | cons b rest ih =>
    intro msg head ht
    by_cases hd : head = 0 ∧ b ≠ 0xFF
    · obtain ⟨h0, hb⟩ := hd
      subst h0
      rw [check_loop_discard msg b rest hb] at ht ⊢
      exact ih msg 0 ht
    · rw [check_loop_accept msg head b rest hd] at ht ⊢
      by_cases hc : 0 < (head + 1) % MAX_MSG_SIZE ∧
          (head + 1) % MAX_MSG_SIZE = (msg.set head b).getD 1 0 + 7
      · rw [if_pos hc] at ht ⊢
        obtain ⟨hpos, hceq⟩ := hc
        refine ⟨rfl, ?_⟩
        intro j hj
        dsimp only at hj ⊢
        have hg1 : (zeroFrom (msg.set head b) ((head + 1) % MAX_MSG_SIZE)).getD 1 0 =
            (msg.set head b).getD 1 0 := zeroFrom_getD_lt _ (by omega)
        rw [hg1] at hj
        exact zeroFrom_getD_ge _ (by omega)
      · rw [if_neg hc] at ht ⊢
        exact ih _ _ ht

/-- With the cursor at 0, every byte other than the header byte 0xFF is
discarded: a burst containing no header byte leaves the state unchanged and
returns no frame. -/
theorem check_loop_discard_all : ∀ (avail msg : List Nat),
    (∀ b ∈ avail, b ≠ 0xFF) → check_loop msg 0 avail = ⟨msg, 0, [], false⟩ := by
  intro avail
  induction avail with
  | nil =>
    intro msg _
    exact check_loop_nil msg 0
  | cons b rest ih =>
    intro msg hb
    rw [check_loop_discard msg b rest (hb b (by simp))]
    exact ih msg (fun x hx => hb x (by simp [hx]))

theorem check_eq_loop (msg : List Nat) (head : Nat) (avail : List Nat) :
    check msg head true avail = check_loop msg head avail := by
  cases avail with
  | nil => rw [check, check_loop_nil]; rfl
  | cons b rest => rfl

/-- Accepting run with the cursor past the length byte: while the cursor
stays strictly below msg[1] + 7 no frame completes and every byte lands at
the next cursor position. -/
theorem check_loop_fill : ∀ (l msg : List Nat) (head : Nat),
    msg.length = MAX_MSG_SIZE → 2 ≤ head →
    head + l.length < msg.getD 1 0 + 7 → msg.getD 1 0 + 7 ≤ 261 →
    check_loop msg head l =
      ⟨msg.take head ++ l ++ msg.drop (head + l.length), head + l.length, [], false⟩ := by
  intro l
  induction l with
  | nil =>
    intro msg head hm hh _ _
    rw [check_loop_nil]
    simp
  | cons b rest ih =>
    intro msg head hm hh hlt htgt
    have hm2 : msg.length = 262 := by rw [hm]; rfl
    simp only [List.length_cons] at hlt
    rw [check_loop_accept msg head b rest (by omega)]
    have hmod : (head + 1) % MAX_MSG_SIZE = head + 1 :=
      Nat.mod_eq_of_lt (by show head + 1 < 262; omega)
    rw [hmod, getD_set_ne msg b (by omega)]
    rw [if_neg (by omega)]
    rw [ih (msg.set head b) (head + 1) (by rw [List.length_set]; exact hm) (by omega)
      (by rw [getD_set_ne msg b (by omega)]; omega)
      (by rw [getD_set_ne msg b (by omega)]; omega)]
    rw [take_set_succ msg b (by omega), drop_set_of_lt msg b (by omega)]
    have harith : head + 1 + rest.length = head + (b :: rest).length := by simp; omega
    rw [harith]
    simp [List.append_assoc]

/-- Accepting run that ends exactly at msg[1] + 7: the frame completes on the
last byte, the tail is zeroed and the cursor is reset. -/
theorem check_loop_finish : ∀ (l msg : List Nat) (head : Nat),
    msg.length = MAX_MSG_SIZE → 2 ≤ head → 0 < l.length →
    head + l.length = msg.getD 1 0 + 7 → msg.getD 1 0 + 7 ≤ 261 →
    check_loop msg head l =
      ⟨zeroFrom (msg.take head ++ l ++ msg.drop (head + l.length)) (msg.getD 1 0 + 7),
       0, [], true⟩ := by
  intro l
  induction l with
  | nil =>
    intro msg head _ _ h0 _ _
    simp at h0
  | cons b rest ih =>
    intro msg head hm hh _ heq htgt
    have hm2 : msg.length = 262 := by rw [hm]; rfl
    simp only [List.length_cons] at heq
    rw [check_loop_accept msg head b rest (by omega)]
    have hmod : (head + 1) % MAX_MSG_SIZE = head + 1 :=
      Nat.mod_eq_of_lt (by show head + 1 < 262; omega)
    rw [hmod, getD_set_ne msg b (by omega)]
    cases rest with
    | nil =>
      simp only [List.length_nil] at heq
      rw [if_pos ⟨by omega, by omega⟩]
      rw [List.set_eq_take_cons_drop b (by omega)]
      simp only [List.length_nil, List.length_cons]
      rw [show head + (0 + 1) = head + 1 from by omega,
        show head + 1 = msg.getD 1 0 + 7 from by omega]
      simp
    | cons r rs =>
      simp only [List.length_cons] at heq
      rw [if_neg (by omega)]
      rw [ih (msg.set head b) (head + 1) (by rw [List.length_set]; exact hm) (by omega)
        (by simp)
        (by rw [getD_set_ne msg b (by omega)]; simp only [List.length_cons]; omega)
        (by rw [getD_set_ne msg b (by omega)]; omega)]
      rw [getD_set_ne msg b (by omega)]
      rw [take_set_succ msg b (by omega), drop_set_of_lt msg b (by omega)]
      have harith : head + 1 + (r :: rs).length = head + (b :: r :: rs).length := by
        simp
        omega
      rw [harith]
      simp [List.append_assoc]

end CheckLoop

section MoreHelpers

theorem lor_eq_zero_iff2 (x y : Nat) : (x ||| y = 0) ↔ (x = 0 ∧ y = 0) := by
  constructor
  · intro h
    have hx : x = 0 := by
      apply Nat.eq_of_testBit_eq
      intro i
      have hbit := congrArg (fun n => Nat.testBit n i) h
      simp only [Nat.testBit_lor] at hbit
      simp [Bool.or_eq_false_iff] at hbit
      simp [hbit.1]
    have hy : y = 0 := by
      apply Nat.eq_of_testBit_eq
      intro i
      have hbit := congrArg (fun n => Nat.testBit n i) h
      simp only [Nat.testBit_lor] at hbit
      simp [Bool.or_eq_false_iff] at hbit
      simp [hbit.2]
    exact ⟨hx, hy⟩
  · rintro ⟨rfl, rfl⟩
    rfl

theorem getD_cons3 (a b c : Nat) (l : List Nat) (k : Nat) :
    (a :: b :: c :: l).getD (k + 3) 0 = l.getD k 0 := rfl

theorem err_bind {α β : Type} (e : PyErr) (f : α → Except PyErr β) :
    (Except.error e >>= f : Except PyErr β) = .error e := rfl

theorem send_command_noport (msg : List Nat) (wait : Bool) (avail : List Nat)
    (hm : msg.length = MAX_MSG_SIZE) (hn : msg.getD 1 0 ≤ 255) :
    send_command msg false wait avail = .ok (encodedBuffer msg, []) := by
  have hm2 : msg.length = 262 := by rw [hm]; rfl
  have hcrc : calculate_crc ((msg.drop 1).take (msg.getD 1 0 + 2)) < 65536 := calculate_crc_lt _
  unfold send_command
  rw [setByte_ok (by omega) (by norm_num), ok_bind]
  simp only [Bool.not_false, if_true, ok_bind]
  rw [getD_set_ne msg 255 (show (0 : Nat) ≠ 1 by omega),
    drop_set_of_lt msg 255 (by omega)]
  rw [setByte_ok (by rw [List.length_set]; omega) (shiftRight8_lt _ hcrc), ok_bind]
  rw [setByte_ok (by rw [List.length_set, List.length_set]; omega) (and_ff_lt _), ok_bind]
  rfl

theorem encodedBuffer_getD0 (msg : List Nat) (hm : msg.length = MAX_MSG_SIZE) :
    (encodedBuffer msg).getD 0 0 = 0xFF := by
  have hm2 : msg.length = 262 := by rw [hm]; rfl
  unfold encodedBuffer
  rw [getD_set_ne _ _ (by omega), getD_set_ne _ _ (by omega),
    getD_set_self msg 255 (by omega)]

end MoreHelpers

section Claims

/-- C1: calculate_crc is a deterministic pure function of the input byte
sequence; its value is always a 16-bit quantity (below 0x10000); it is the
fold of the nibble-pair table step crcStep over the bytes of the input,
starting from the register seed 0xFFFF. -/
theorem C1_crc_deterministic_16bit (d : List Nat) (b : Nat) :
    calculate_crc d = calculate_crc d ∧
    calculate_crc d < 65536 ∧
    calculate_crc (d ++ [b]) = crcStep (calculate_crc d) b ∧
    calculate_crc [] = 0xFFFF := by
  refine ⟨rfl, calculate_crc_lt d, ?_, rfl⟩
  rw [calculate_crc_append]
  rfl

/-- The content of claim C2 at one choice of inputs: the transport sees
exactly the frame 0xFF, len, opcode, payload, crc_hi, crc_lo, a total of
len + 5 bytes, with the CRC computed over [len, opcode, payload]. -/
def C2Prop (msg : List Nat) (o : Nat) (p : List Nat) (wait : Bool) (avail : List Nat) : Prop :=
  ∃ m, send_message msg true wait o p avail = .ok (m, wire_frame o p) ∧
    wire_frame o p = [0xFF, p.length, o] ++ p ++
      [calculate_crc ([p.length, o] ++ p) >>> 8,
       calculate_crc ([p.length, o] ++ p) &&& 0xFF] ∧
    (wire_frame o p).length = p.length + 5

/-- C2: for every opcode byte and payload whose length fits the one-byte
length field, the encoded outgoing frame written to the transport is exactly
[0xFF, len(p), o, p..., crc_hi, crc_lo], len(p) + 5 bytes in total, where
(crc_hi, crc_lo) is the big-endian 16-bit calculate_crc of
[len(p), o, p...]. -/
theorem C2_encode_wire_frame (msg : List Nat) (o : Nat) (p : List Nat) (wait : Bool)
    (avail : List Nat) (hm : msg.length = MAX_MSG_SIZE) (ho : o < 256)
    (hp : ∀ b ∈ p, b < 256) (hl : p.length ≤ 255) (ha : ∀ b ∈ avail, b < 256) :
    C2Prop msg o p wait avail := by
  obtain ⟨m, hrun, _⟩ := send_message_runs msg o p avail wait hm ho hp hl ha
  refine ⟨m, hrun, rfl, ?_⟩
  simp [wire_frame]

/-- Witness for C2 at a concrete opcode and payload. -/
theorem C2_encode_wire_frame_witness :
    (List.replicate MAX_MSG_SIZE 0).length = MAX_MSG_SIZE ∧ (3 : Nat) < 256 ∧
    (∀ b ∈ ([7] : List Nat), b < 256) ∧ ([7] : List Nat).length ≤ 255 ∧
    (∀ b ∈ ([] : List Nat), b < 256) ∧
    C2Prop (List.replicate MAX_MSG_SIZE 0) 3 [7] false [] :=
  ⟨by simp, by norm_num, by decide, by decide, by simp,
   C2_encode_wire_frame (List.replicate MAX_MSG_SIZE 0) 3 [7] false []
     (by simp) (by norm_num) (by decide) (by decide) (by simp)⟩

/-- The content of claim C5 at one choice of request buffer and response
bytes: the transaction result is recorded in byte 0 of the buffer and equals
the cascade transaction_outcome (timeout, then CRC check, then opcode check,
then ALL_GOOD). -/
def C5Prop (msg avail : List Nat) : Prop :=
  ∃ m w, send_command msg true true avail = .ok (m, w) ∧
    m.getD 0 0 = transaction_outcome (msg.getD 2 0) avail

/-- C5: for every transaction executed with wait_for_response true, byte 0 of
the message buffer records the outcome: ERROR_COMMAND_RESPONSE_TIMEOUT when
fewer than response-length-byte + 7 bytes arrive before the timeout,
otherwise ERROR_CORRUPT_RESPONSE when the trailing two CRC bytes differ from
the recomputed CRC, otherwise ERROR_WRONG_OPCODE_RESPONSE when the response
opcode differs from the request opcode, otherwise ALL_GOOD, with the checks
applied in exactly that order (definition transaction_outcome). -/
theorem C5_transaction_outcome_recorded (msg avail : List Nat)
    (hm : msg.length = MAX_MSG_SIZE) (hn : msg.getD 1 0 ≤ 255)
    (ha : ∀ b ∈ avail, b < 256) : C5Prop msg avail := by
  obtain ⟨m, hrun, hout⟩ := send_command_runs msg avail true hm hn ha
  exact ⟨m, _, hrun, hout rfl⟩

/-- Witness for C5 on a complete, CRC-valid, opcode-matching response. -/
theorem C5_transaction_outcome_recorded_witness :
    (List.replicate MAX_MSG_SIZE 0).length = MAX_MSG_SIZE ∧
    (List.replicate MAX_MSG_SIZE 0).getD 1 0 ≤ 255 ∧
    (∀ b ∈ [255, 0, 0, 0, 0, calculate_crc [0, 0, 0, 0] >>> 8,
      calculate_crc [0, 0, 0, 0] &&& 0xFF], b < 256) ∧
    C5Prop (List.replicate MAX_MSG_SIZE 0)
      [255, 0, 0, 0, 0, calculate_crc [0, 0, 0, 0] >>> 8,
       calculate_crc [0, 0, 0, 0] &&& 0xFF] :=
  ⟨by simp, by simp [getD_replicate_zero], by decide,
   C5_transaction_outcome_recorded (List.replicate MAX_MSG_SIZE 0) _
     (by simp) (by simp [getD_replicate_zero]) (by decide)⟩

/-- C6 counterexample: a payload longer than 255 bytes makes send_message
raise a Python ValueError (modelled as the error branch of the Except monad)
at the length-byte store, rather than produce any typed PayloadTooLarge
outcome. -/
theorem C6_counterexample :
    send_message (List.replicate MAX_MSG_SIZE 0) true true 0 (List.replicate 256 0) [] =
      .error PyErr.valueError := rfl

/-- The amended content of claim C6: oversized payloads raise ValueError on
any port state, and a call with no open connection returns with byte 0 left
at 0xFF, the same value as the ALL_GOOD success code, recording no
TransportUnavailable outcome. -/
def C6AmendedProp (msg : List Nat) (o : Nat) (p avail : List Nat) (wait : Bool) : Prop :=
  (∀ hasPort : Bool, 255 < p.length →
    send_message msg hasPort wait o p avail = .error PyErr.valueError) ∧
  (p.length ≤ 255 →
    ∃ m, send_message msg false wait o p avail = .ok (m, []) ∧ m.getD 0 0 = ALL_GOOD)

/-- C6 amended: Timeout, CorruptFrame and OpcodeMismatch are recorded as
typed codes in byte 0, but a payload longer than 255 bytes raises ValueError
from the encode step instead of producing a typed PayloadTooLarge outcome,
and a call with no open connection writes nothing and returns with byte 0
equal to 0xFF, indistinguishable from the ALL_GOOD success code, rather than
recording a TransportUnavailable outcome. -/
theorem C6_amended (msg : List Nat) (o : Nat) (p avail : List Nat) (wait : Bool)
    (hm : msg.length = MAX_MSG_SIZE) (ho : o < 256) (hp : ∀ b ∈ p, b < 256) :
    C6AmendedProp msg o p avail wait := by
  have hm2 : msg.length = 262 := by rw [hm]; rfl
  constructor
  · intro hasPort hbig
    unfold send_message
    have hset : setByte msg 1 p.length = .error PyErr.valueError := by
      unfold setByte
      rw [if_neg (by omega), if_pos (by omega)]
    rw [hset, err_bind]
  · intro hle
    obtain ⟨c0, c1, c2, mt, rfl⟩ := exists_cons3 msg (by omega)
    unfold send_message
    rw [setByte_ok (by simp) (by omega), ok_bind]
    simp only [List.set_cons_succ, List.set_cons_zero]
    rw [setByte_ok (by simp) ho, ok_bind]
    simp only [List.set_cons_succ, List.set_cons_zero]
    rw [storeData_ok p _ 3 (by simp at hm2 ⊢; omega) hp, ok_bind]
    have hdrop3 : List.drop (3 + p.length) (c0 :: p.length :: o :: mt) = mt.drop p.length := by
      rw [Nat.add_comm]
      rfl
    rw [hdrop3]
    simp only [List.take_succ_cons, List.take_zero, List.cons_append, List.nil_append]
    have hlen : (c0 :: p.length :: o :: (p ++ mt.drop p.length)).length = MAX_MSG_SIZE := by
      show _ = 262
      simp only [List.length_cons, List.length_append, List.length_drop]
      simp at hm2
      omega
    rw [send_command_noport _ wait avail hlen (by simp [hle])]
    exact ⟨_, rfl, encodedBuffer_getD0 _ hlen⟩

/-- Witness for C6 amended. -/
theorem C6_amended_witness :
    (List.replicate MAX_MSG_SIZE 0).length = MAX_MSG_SIZE ∧ (3 : Nat) < 256 ∧
    (∀ b ∈ ([1, 2] : List Nat), b < 256) ∧
    C6AmendedProp (List.replicate MAX_MSG_SIZE 0) 3 [1, 2] [] true :=
  ⟨by simp, by norm_num, by decide,
   C6_amended (List.replicate MAX_MSG_SIZE 0) 3 [1, 2] [] true
     (by simp) (by norm_num) (by decide)⟩

/-- C10 counterexample: a power setting below the signed 16-bit range raises
a Python OverflowError (the error branch of the Except monad) from the
2-byte signed conversion; nothing is sent. -/
theorem C10_counterexample :
    set_read_power (List.replicate MAX_MSG_SIZE 0) true (-32769) [] =
      .error PyErr.overflowError := rfl

/-- The 2-byte big-endian two's-complement encoding of the clamped power
setting that set_read_power sends. -/
def powerBytes (power_setting : Int) : List Nat :=
  [((if power_setting > 2700 then 2700 else power_setting) % 65536).toNat >>> 8,
   ((if power_setting > 2700 then 2700 else power_setting) % 65536).toNat % 256]

/-- The amended content of claim C10 at one choice of inputs. -/
def C10AmendedProp (msg : List Nat) (power_setting : Int) (avail : List Nat) : Prop :=
  (∃ m, set_read_power msg true power_setting avail =
    .ok (m, wire_frame TMR_SR_OPCODE_SET_READ_TX_POWER (powerBytes power_setting))) ∧
  (∀ q : Int, q < -32768 →
    set_read_power msg true q avail = .error PyErr.overflowError)

/-- C10 amended: set_read_power clamps any argument greater than 2700 to
2700 before encoding; any argument in [-32768, 2700] is sent unchanged as a
2-byte big-endian two's-complement value; any argument below -32768 raises
OverflowError from the 2-byte signed conversion instead of being sent. -/
theorem C10_amended (msg : List Nat) (power_setting : Int) (avail : List Nat)
    (hm : msg.length = MAX_MSG_SIZE) (hpow : -32768 ≤ power_setting)
    (ha : ∀ b ∈ avail, b < 256) : C10AmendedProp msg power_setting avail := by
  constructor
  · simp only [set_read_power]
    have hrange : ¬ ((if power_setting > 2700 then 2700 else power_setting) < -32768 ∨
        32767 < (if power_setting > 2700 then 2700 else power_setting)) := by
      by_cases hc : power_setting > 2700
      · rw [if_pos hc]
        omega
      · rw [if_neg hc]
        omega
    have hbytes : int_to_bytes2_signed (if power_setting > 2700 then 2700 else power_setting) =
        .ok (powerBytes power_setting) := by
      unfold int_to_bytes2_signed powerBytes
      rw [if_neg hrange]
    rw [hbytes, ok_bind]
    have hv : ((if power_setting > 2700 then 2700 else power_setting) % 65536).toNat < 65536 := by
      have h1 : (0 : Int) ≤ (if power_setting > 2700 then 2700 else power_setting) % 65536 :=
        Int.emod_nonneg _ (by norm_num)
      have h2 : (if power_setting > 2700 then 2700 else power_setting) % 65536 < 65536 :=
        Int.emod_lt_of_pos _ (by norm_num)
      omega
    obtain ⟨m, hrun, _⟩ := send_message_runs msg TMR_SR_OPCODE_SET_READ_TX_POWER
      (powerBytes power_setting) avail true hm (by norm_num [TMR_SR_OPCODE_SET_READ_TX_POWER])
      (by
        intro b hb
        unfold powerBytes at hb
        simp only [List.mem_cons, List.not_mem_nil, or_false] at hb
        rcases hb with rfl | rfl
        · exact shiftRight8_lt _ hv
        · exact Nat.mod_lt _ (by norm_num))
      (by norm_num [powerBytes]) ha
    exact ⟨m, hrun⟩
  · intro q hq
    simp only [set_read_power]
    have hqc : ¬ q > 2700 := by omega
    rw [if_neg hqc]
    have herr : int_to_bytes2_signed q = .error PyErr.overflowError := by
      unfold int_to_bytes2_signed
      rw [if_pos (Or.inl (by omega))]
    rw [herr, err_bind]

/-- Witness for C10 amended at a concrete in-range power setting. -/
theorem C10_amended_witness :
    (List.replicate MAX_MSG_SIZE 0).length = MAX_MSG_SIZE ∧ (-32768 : Int) ≤ 2000 ∧
    (∀ b ∈ ([] : List Nat), b < 256) ∧
    C10AmendedProp (List.replicate MAX_MSG_SIZE 0) 2000 [] :=
  ⟨by simp, by norm_num, by simp,
   C10_amended (List.replicate MAX_MSG_SIZE 0) 2000 []
     (by simp) (by norm_num) (by simp)⟩

/-- The content of claim C4 at one choice of buffer, cursor and buffered
bytes: the incremental decoder consumes only buffered bytes (the remainder is
a suffix and a False return means everything was consumed, so the call never
waits for more input), discards every non-0xFF byte while the cursor is 0,
appends each accepted byte at the cursor position, and completes a frame
exactly when the advanced cursor equals msg[1] + 7, at which point the tail
of the buffer is zeroed, the cursor is reset to 0 and True is returned. -/
def C4Prop (msg : List Nat) (head : Nat) (avail : List Nat) : Prop :=
  (∃ pre, avail = pre ++ (check msg head true avail).remaining) ∧
  ((check msg head true avail).complete = false →
    (check msg head true avail).remaining = []) ∧
  ((check msg head true avail).complete = true →
    (check msg head true avail).head = 0 ∧
    ∀ j, (check msg head true avail).msg.getD 1 0 + 7 ≤ j →
      (check msg head true avail).msg.getD j 0 = 0) ∧
  ((∀ b ∈ avail, b ≠ 0xFF) → check msg 0 true avail = ⟨msg, 0, [], false⟩) ∧
  (∀ b rest, ¬ (head = 0 ∧ b ≠ 0xFF) →
    check_loop msg head (b :: rest) =
      if 0 < (head + 1) % MAX_MSG_SIZE ∧
          (head + 1) % MAX_MSG_SIZE = (msg.set head b).getD 1 0 + 7 then
        ⟨zeroFrom (msg.set head b) ((head + 1) % MAX_MSG_SIZE), 0, rest, true⟩
      else check_loop (msg.set head b) ((head + 1) % MAX_MSG_SIZE) rest) ∧
  (∀ b rest, b ≠ 0xFF → check_loop msg 0 (b :: rest) = check_loop msg 0 rest)

/-- C4: check never blocks beyond the bytes the transport already has
buffered, discards non-header bytes while the cursor is 0, appends accepted
bytes at the cursor, declares a frame complete exactly when the cursor
reaches msg[1] + 7 (zeroing the tail, resetting the cursor and returning
True), and returns False from every invocation in which no frame
completes. -/
theorem C4_incremental_decoder (msg : List Nat) (head : Nat) (avail : List Nat) :
    C4Prop msg head avail := by
  refine ⟨?_, ?_, ?_, ?_, ?_, ?_⟩
  · rw [check_eq_loop]
    exact check_loop_consumes avail msg head
  · rw [check_eq_loop]
    exact check_loop_false_consumed avail msg head
  · rw [check_eq_loop]
    exact check_loop_complete_state avail msg head
  · intro hb
    rw [check_eq_loop]
    exact check_loop_discard_all avail msg hb
  · intro b rest h
    exact check_loop_accept msg head b rest h
  · intro b rest hb
    exact check_loop_discard msg b rest hb

/-- Witness for C4 on a concrete buffer and byte burst. -/
theorem C4_incremental_decoder_witness :
    C4Prop (List.replicate MAX_MSG_SIZE 0) 0 [9, 255, 0, 34] :=
  C4_incremental_decoder (List.replicate MAX_MSG_SIZE 0) 0 [9, 255, 0, 34]

theorem status_zero_iff (a b : Nat) : ((a <<< 8) ||| b = 0) ↔ (256 * a + b = 0) := by
  rw [lor_eq_zero_iff2, Nat.shiftLeft_eq]
  constructor
  · rintro ⟨h1, h2⟩
    omega
  · intro h
    constructor <;> omega

/-- The fixed-format read payload of read_data (rfid_reader.py lines
388-400): timeout echo big-endian, option byte 0x10, two metadata bytes,
bank, 4-byte big-endian address, and the read-entire-bank marker. -/
def read_data_payload (bank address timeout : Nat) : List Nat :=
  [(timeout >>> 8) &&& 0xFF, timeout &&& 0xFF, 0x10, 0x00, 0x00, bank,
   (address >>> 24) &&& 0xFF, (address >>> 16) &&& 0xFF,
   (address >>> 8) &&& 0xFF, address &&& 0xFF, 0x00]

/-- The content of claim C9 at one choice of inputs: read_data sends the
fixed-format payload under the read-tag-data opcode, never raises, and
returns (RESPONSE_SUCCESS, slice at offset 8 of length response-length-byte
minus 3) exactly when byte 0 records ALL_GOOD and the 2-byte status word at
offsets 3-4 is zero, and (RESPONSE_FAIL, empty) otherwise. -/
def C9Prop (msg : List Nat) (bank address timeout : Nat) (avail : List Nat) : Prop :=
  ∃ m code data, read_data msg true bank address timeout avail =
      .ok ((code, data), m,
        wire_frame TMR_SR_OPCODE_READ_TAG_DATA (read_data_payload bank address timeout)) ∧
    ((m.getD 0 0 = ALL_GOOD ∧ 256 * m.getD 3 0 + m.getD 4 0 = 0) →
      code = RESPONSE_SUCCESS ∧ data = (m.drop 8).take (m.getD 1 0 - 3)) ∧
    (¬ (m.getD 0 0 = ALL_GOOD ∧ 256 * m.getD 3 0 + m.getD 4 0 = 0) →
      code = RESPONSE_FAIL ∧ data = [])

/-- C9: for every bank byte, address and timeout, read_data sends the
payload [timeout_hi, timeout_lo, 0x10, 0x00, 0x00, bank, address as 4
big-endian bytes, 0x00] with the read-tag-data opcode and returns the read
bytes exactly when the recorded outcome is ALL_GOOD and the embedded status
word at offsets 3-4 is 0x0000 - the returned data being the slice at offset
8 of length response-length-byte minus 3 - and a typed failure
(RESPONSE_FAIL, empty bytes) in every other case, never raising an
exception. -/
theorem C9_read_data (msg : List Nat) (bank address timeout : Nat) (avail : List Nat)
    (hm : msg.length = MAX_MSG_SIZE) (hbank : bank < 256) (ha : ∀ b ∈ avail, b < 256) :
    C9Prop msg bank address timeout avail := by
  unfold C9Prop read_data_payload
  simp only [read_data]
  have hpay : mk_bytearray
      [(timeout >>> 8) &&& 0xFF, timeout &&& 0xFF, 0x10, 0x00, 0x00, bank,
       (address >>> 24) &&& 0xFF, (address >>> 16) &&& 0xFF,
       (address >>> 8) &&& 0xFF, address &&& 0xFF, 0x00] =
      .ok [(timeout >>> 8) &&& 0xFF, timeout &&& 0xFF, 0x10, 0x00, 0x00, bank,
       (address >>> 24) &&& 0xFF, (address >>> 16) &&& 0xFF,
       (address >>> 8) &&& 0xFF, address &&& 0xFF, 0x00] := by
    unfold mk_bytearray
    rw [if_pos]
    simp only [List.all_cons, List.all_nil, Bool.and_eq_true, decide_eq_true_eq]
    exact ⟨and_ff_lt _, and_ff_lt _, by norm_num, by norm_num, by norm_num, hbank,
      and_ff_lt _, and_ff_lt _, and_ff_lt _, and_ff_lt _, by norm_num, trivial⟩
  rw [hpay, ok_bind]
  obtain ⟨m, hrun, _⟩ := send_message_runs msg TMR_SR_OPCODE_READ_TAG_DATA
    [(timeout >>> 8) &&& 0xFF, timeout &&& 0xFF, 0x10, 0x00, 0x00, bank,
     (address >>> 24) &&& 0xFF, (address >>> 16) &&& 0xFF,
     (address >>> 8) &&& 0xFF, address &&& 0xFF, 0x00] avail true hm
    (by norm_num [TMR_SR_OPCODE_READ_TAG_DATA])
    (by
      intro b hb
      simp only [List.mem_cons, List.not_mem_nil, or_false] at hb
      rcases hb with rfl | rfl | rfl | rfl | rfl | rfl | rfl | rfl | rfl | rfl | rfl
      · exact and_ff_lt _
      · exact and_ff_lt _
      · norm_num
      · norm_num
      · norm_num
      · exact hbank
      · exact and_ff_lt _
      · exact and_ff_lt _
      · exact and_ff_lt _
      · exact and_ff_lt _
      · norm_num)
    (by norm_num) ha
  rw [hrun, ok_bind]
  simp only [status_zero_iff]
  by_cases hg : m.getD 0 0 = ALL_GOOD
  · rw [if_pos hg]
    by_cases hs : 256 * m.getD 3 0 + m.getD 4 0 = 0
    · rw [if_pos hs]
      exact ⟨m, RESPONSE_SUCCESS, (m.drop 8).take (m.getD 1 0 - 3), rfl,
        fun _ => ⟨rfl, rfl⟩, fun hcon => absurd ⟨hg, hs⟩ hcon⟩
    · rw [if_neg hs]
      exact ⟨m, RESPONSE_FAIL, [], rfl,
        fun hcon => absurd hcon.2 hs, fun _ => ⟨rfl, rfl⟩⟩
  · rw [if_neg hg]
    exact ⟨m, RESPONSE_FAIL, [], rfl,
      fun hcon => absurd hcon.1 hg, fun _ => ⟨rfl, rfl⟩⟩

/-- Witness for C9 at a concrete bank, address and timeout. -/
theorem C9_read_data_witness :
    (List.replicate MAX_MSG_SIZE 0).length = MAX_MSG_SIZE ∧ (1 : Nat) < 256 ∧
    (∀ b ∈ ([] : List Nat), b < 256) ∧
    C9Prop (List.replicate MAX_MSG_SIZE 0) 1 2 500 [] :=
  ⟨by simp, by norm_num, by simp,
   C9_read_data (List.replicate MAX_MSG_SIZE 0) 1 2 500 []
     (by simp) (by norm_num) (by simp)⟩

/-- The trailing CRC bytes of a buffered response frame match the CRC the
decoder recomputes over bytes 1 .. msg[1] + 4 (a frame is msg[1] + 7 bytes,
so the trailing CRC bytes sit at msg[1] + 5 and msg[1] + 6). -/
def crc_matches (m : List Nat) : Prop :=
  m.getD (m.getD 1 0 + 5) 0 = respCrc m >>> 8 ∧
  m.getD (m.getD 1 0 + 6) 0 = respCrc m &&& 0xFF

/-- The content of claim C7 for one buffered frame: CRC failure dominates
and yields ERROR_CORRUPT_RESPONSE before any opcode inspection; a CRC-valid
frame with an opcode other than read-multiple-tag-IDs yields
ERROR_UNKNOWN_OPCODE; a CRC-valid read-multiple frame is classified by its
length byte: 0 by the 2-byte status word (0x0400 keepalive, 0x0504 throttle,
0x0505 high return loss, else unknown), 0x08 unknown, 0x0A temperature, and
every other length a found tag. -/
def C7Prop (m : List Nat) : Prop :=
  (¬ crc_matches m → parse_response m = ERROR_CORRUPT_RESPONSE) ∧
  (crc_matches m → m.getD 2 0 ≠ TMR_SR_OPCODE_READ_TAG_ID_MULTIPLE →
    parse_response m = ERROR_UNKNOWN_OPCODE) ∧
  (crc_matches m → m.getD 2 0 = TMR_SR_OPCODE_READ_TAG_ID_MULTIPLE →
    (m.getD 1 0 = 0 → parse_response m =
      (if 256 * m.getD 3 0 + m.getD 4 0 = 0x0400 then RESPONSE_IS_KEEPALIVE
       else if 256 * m.getD 3 0 + m.getD 4 0 = 0x0504 then RESPONSE_IS_TEMPTHROTTLE
       else if 256 * m.getD 3 0 + m.getD 4 0 = 0x0505 then RESPONSE_IS_HIGHRETURNLOSS
       else RESPONSE_IS_UNKNOWN)) ∧
    (m.getD 1 0 = 0x08 → parse_response m = RESPONSE_IS_UNKNOWN) ∧
    (m.getD 1 0 = 0x0A → parse_response m = RESPONSE_IS_TEMPERATURE) ∧
    (m.getD 1 0 ≠ 0 → m.getD 1 0 ≠ 0x08 → m.getD 1 0 ≠ 0x0A →
      parse_response m = RESPONSE_IS_TAGFOUND))

/-- C7: parse_response classifies a buffered frame exactly as the claim
states: corrupt before any opcode inspection, unknown opcode for anything
other than read-multiple-tag-IDs, and for that opcode the length-byte /
status-word decision table. -/
theorem C7_parse_response_classification (m : List Nat) (hb : ∀ b ∈ m, b < 256) :
    C7Prop m := by
  have hb4 : m.getD 4 0 < 256 := getD_lt_256 hb 4
  have hstat : (m.getD 3 0 <<< 8) ||| m.getD 4 0 = 256 * m.getD 3 0 + m.getD 4 0 :=
    shiftLeft8_or _ _ hb4
  unfold C7Prop crc_matches respCrc
  simp only [parse_response]
  rw [show m.getD 1 0 + 7 - 2 = m.getD 1 0 + 5 from by omega,
    show m.getD 1 0 + 7 - 1 = m.getD 1 0 + 6 from by omega,
    show m.getD 1 0 + 7 - 3 = m.getD 1 0 + 4 from by omega, hstat]
  by_cases hcm : m.getD (m.getD 1 0 + 5) 0 =
      calculate_crc ((m.drop 1).take (m.getD 1 0 + 4)) >>> 8 ∧
      m.getD (m.getD 1 0 + 6) 0 =
      calculate_crc ((m.drop 1).take (m.getD 1 0 + 4)) &&& 0xFF
  · rw [if_neg (fun hC => hC.elim (fun hn => hn hcm.1) (fun hn => hn hcm.2))]
    refine ⟨fun hn => absurd hcm hn, fun _ hop => by rw [if_neg hop], fun _ hop => ?_⟩
    rw [if_pos hop]
    refine ⟨fun h0 => by rw [if_pos h0], fun h8 => ?_, fun hA => ?_, fun h0 h8 hA => ?_⟩
    · rw [if_neg (by omega), if_pos h8]
    · rw [if_neg (by omega), if_neg (by omega), if_pos hA]
    · rw [if_neg h0, if_neg h8, if_neg hA]
  · rw [if_pos (by tauto)]
    exact ⟨fun _ => rfl, fun hcm2 _ => absurd hcm2 hcm, fun hcm2 _ => absurd hcm2 hcm⟩

/-- Witness for C7 on a CRC-valid keepalive frame (length byte 0, opcode
0x22, status word 0x0400). -/
theorem C7_parse_response_classification_witness :
    (∀ b ∈ [255, 0, 0x22, 0x04, 0x00,
      calculate_crc [0, 0x22, 0x04, 0x00] >>> 8,
      calculate_crc [0, 0x22, 0x04, 0x00] &&& 0xFF], b < 256) ∧
    C7Prop [255, 0, 0x22, 0x04, 0x00,
      calculate_crc [0, 0x22, 0x04, 0x00] >>> 8,
      calculate_crc [0, 0x22, 0x04, 0x00] &&& 0xFF] :=
  ⟨by decide, C7_parse_response_classification _ (by decide)⟩

/-- The content of claim C8 for one buffer: RSSI is the raw byte at offset
12 minus 256; frequency is the 3-byte big-endian integer at offsets 14-16;
timestamp is the 4-byte big-endian integer at offsets 17-20; the embedded
tag-data byte count is the ceiling of the 2-byte big-endian bit count at
offsets 24-25 divided by 8; and the EPC byte count is the 2-byte big-endian
value at offsets 27 and 28 shifted by the tag-data byte count, divided by 8,
minus 4 (the embedded length being computed first). -/
def C8Prop (m : List Nat) : Prop :=
  get_tag_rssi m = (↑(m.getD 12 0) : Int) - 256 ∧
  (m.getD 12 0 = 200 → get_tag_rssi m = -56) ∧
  get_tag_freq m = 65536 * m.getD 14 0 + 256 * m.getD 15 0 + m.getD 16 0 ∧
  get_tag_timestamp m = 16777216 * m.getD 17 0 + 65536 * m.getD 18 0 +
    256 * m.getD 19 0 + m.getD 20 0 ∧
  get_tag_data_bytes m = (256 * m.getD 24 0 + m.getD 25 0 + 7) / 8 ∧
  get_tag_epc_bytes m = (↑((256 * m.getD (27 + get_tag_data_bytes m) 0 +
    m.getD (28 + get_tag_data_bytes m) 0) / 8) : Int) - 4

/-- C8: tag-report field extraction matches the claimed big-endian layout:
RSSI = raw byte at 12 minus 256 (raw 200 gives -56), frequency = 3-byte
big-endian at 14-16, timestamp = 4-byte big-endian at 17-20, embedded
tag-data bytes = ceiling(bit count at 24-25 over 8), EPC bytes = value at
27/28 offset by the tag-data byte count, divided by 8, minus 4, with the
embedded length computed before the EPC length. -/
theorem C8_tag_field_extraction (m : List Nat) (hb : ∀ b ∈ m, b < 256) : C8Prop m := by
  have h15 : m.getD 15 0 < 256 := getD_lt_256 hb 15
  have h16 : m.getD 16 0 < 256 := getD_lt_256 hb 16
  have h18 : m.getD 18 0 < 256 := getD_lt_256 hb 18
  have h19 : m.getD 19 0 < 256 := getD_lt_256 hb 19
  have h20 : m.getD 20 0 < 256 := getD_lt_256 hb 20
  have h25 : m.getD 25 0 < 256 := getD_lt_256 hb 25
  have h28 : m.getD (28 + get_tag_data_bytes m) 0 < 256 := getD_lt_256 hb _
  refine ⟨rfl, ?_, ?_, ?_, ?_, ?_⟩
  · intro h200
    unfold get_tag_rssi
    rw [h200]
    norm_num
  · have hf : get_tag_freq m =
        ((0 ||| (m.getD 14 0 <<< 16)) ||| (m.getD 15 0 <<< 8)) ||| m.getD 16 0 := rfl
    rw [hf, Nat.zero_or, Nat.shiftLeft_eq, Nat.shiftLeft_eq]
    have ha : m.getD 14 0 * 2 ^ 16 ||| m.getD 15 0 * 2 ^ 8 =
        m.getD 14 0 * 2 ^ 16 + m.getD 15 0 * 2 ^ 8 :=
      lor_add_of_dvd 16 ⟨m.getD 14 0, by ring⟩ (by omega)
    rw [ha]
    have ha2 : m.getD 14 0 * 2 ^ 16 + m.getD 15 0 * 2 ^ 8 ||| m.getD 16 0 =
        m.getD 14 0 * 2 ^ 16 + m.getD 15 0 * 2 ^ 8 + m.getD 16 0 :=
      lor_add_of_dvd 8 ⟨m.getD 14 0 * 2 ^ 8 + m.getD 15 0, by ring⟩ (by omega)
    rw [ha2]
    omega
  · have ht : get_tag_timestamp m =
        (((0 ||| (m.getD 17 0 <<< 24)) ||| (m.getD 18 0 <<< 16)) |||
          (m.getD 19 0 <<< 8)) ||| m.getD 20 0 := rfl
    rw [ht, Nat.zero_or, Nat.shiftLeft_eq, Nat.shiftLeft_eq, Nat.shiftLeft_eq]
    have ha : m.getD 17 0 * 2 ^ 24 ||| m.getD 18 0 * 2 ^ 16 =
        m.getD 17 0 * 2 ^ 24 + m.getD 18 0 * 2 ^ 16 :=
      lor_add_of_dvd 24 ⟨m.getD 17 0, by ring⟩ (by omega)
    rw [ha]
    have ha2 : m.getD 17 0 * 2 ^ 24 + m.getD 18 0 * 2 ^ 16 ||| m.getD 19 0 * 2 ^ 8 =
        m.getD 17 0 * 2 ^ 24 + m.getD 18 0 * 2 ^ 16 + m.getD 19 0 * 2 ^ 8 :=
      lor_add_of_dvd 16 ⟨m.getD 17 0 * 2 ^ 8 + m.getD 18 0, by ring⟩ (by omega)
    rw [ha2]
    have ha3 : m.getD 17 0 * 2 ^ 24 + m.getD 18 0 * 2 ^ 16 + m.getD 19 0 * 2 ^ 8 |||
        m.getD 20 0 =
        m.getD 17 0 * 2 ^ 24 + m.getD 18 0 * 2 ^ 16 + m.getD 19 0 * 2 ^ 8 + m.getD 20 0 :=
      lor_add_of_dvd 8 ⟨m.getD 17 0 * 2 ^ 16 + m.getD 18 0 * 2 ^ 8 + m.getD 19 0,
        by ring⟩ (by omega)
    rw [ha3]
    omega
  · unfold get_tag_data_bytes
    rw [shiftLeft8_or _ _ h25]
    by_cases hmod : (256 * m.getD 24 0 + m.getD 25 0) % 8 > 0
    · rw [if_pos hmod]
      omega
    · rw [if_neg hmod]
      omega
  · simp only [get_tag_epc_bytes]
    rw [shiftLeft8_or _ _ h28]

/-- Witness for C8 on a concrete tag-report buffer with RSSI raw byte 200,
frequency bytes 0x12 0x34 0x56 and timestamp bytes 0x01 0x02 0x03 0x04. -/
theorem C8_tag_field_extraction_witness :
    (∀ b ∈ [0, 0, 0, 0, 0, 0, 0, 0, 0, 0, 0, 0, 200, 0, 0x12, 0x34, 0x56,
      1, 2, 3, 4, 0, 0, 0, 0, 17], b < 256) ∧
    C8Prop [0, 0, 0, 0, 0, 0, 0, 0, 0, 0, 0, 0, 200, 0, 0x12, 0x34, 0x56,
      1, 2, 3, 4, 0, 0, 0, 0, 17] :=
  ⟨by decide, C8_tag_field_extraction _ (by decide)⟩

/-- C3 counterexample: encoding opcode 0x22 with the empty payload produces
a 5-byte frame, but decoding exactly those produced bytes yields no frame:
the incremental decoder completes only at length-byte + 7 = 7 bytes, and the
blocking decoder records a timeout. -/
theorem C3_roundtrip_counterexample :
    (check (List.replicate MAX_MSG_SIZE 0) 0 true (wire_frame 0x22 [])).complete = false ∧
    ((send_message (List.replicate MAX_MSG_SIZE 0) true true 0x22 []
        (wire_frame 0x22 [])).map (fun r => r.1.getD 0 0)) =
      .ok ERROR_COMMAND_RESPONSE_TIMEOUT ∧
    (wire_frame 0x22 []).length = 5 := by
  refine ⟨?_, ?_, ?_⟩ <;> rfl

theorem drop_cons2 (a b : Nat) (l : List Nat) (k : Nat) :
    (a :: b :: l).drop (k + 2) = l.drop k := rfl

/-- Feeding a header, a length byte n, an opcode, an n-byte payload and four
trailing bytes into the incremental decoder from a fresh zeroed buffer
completes a frame of n + 7 bytes. -/
theorem check_stream_canonical (n o h1 h2 t1 t2 : Nat) (p : List Nat)
    (hn : p.length = n) (hl : n ≤ 254) :
    check_loop (List.replicate MAX_MSG_SIZE 0) 0
      (255 :: n :: o :: (p ++ h1 :: h2 :: t1 :: t2 :: [])) =
    ⟨255 :: n :: o :: (p ++ h1 :: h2 :: t1 :: t2 :: List.replicate (255 - n) 0),
     0, [], true⟩ := by
  subst hn
  have hrep : List.replicate MAX_MSG_SIZE (0 : Nat) = 0 :: 0 :: List.replicate 260 0 := rfl
  rw [hrep]
  rw [check_loop_accept _ 0 255 _ (by simp)]
  simp only [List.set_cons_zero, List.set_cons_succ]
  rw [show (0 + 1) % MAX_MSG_SIZE = 1 from rfl]
  rw [if_neg (by simp)]
  rw [check_loop_accept _ 1 p.length _ (by simp)]
  simp only [List.set_cons_zero, List.set_cons_succ]
  rw [show (1 + 1) % MAX_MSG_SIZE = 2 from rfl]
  rw [if_neg (by simp only [List.getD_cons_succ, List.getD_cons_zero]; omega)]
  rw [check_loop_finish _ _ 2
    (by simp only [List.length_cons, List.length_replicate]; rfl)
    (le_refl 2)
    (by simp)
    (by simp only [List.length_cons, List.length_append, List.length_nil,
      List.getD_cons_succ, List.getD_cons_zero]; omega)
    (by simp only [List.getD_cons_succ, List.getD_cons_zero]; omega)]
  have htake : (255 :: p.length :: List.replicate 260 (0 : Nat)).take 2 =
      [255, p.length] := rfl
  have hdrop : (255 :: p.length :: List.replicate 260 (0 : Nat)).drop
      (2 + (o :: (p ++ h1 :: h2 :: t1 :: t2 :: [])).length) =
      List.replicate (255 - p.length) 0 := by
    have hlen : (o :: (p ++ h1 :: h2 :: t1 :: t2 :: [])).length = p.length + 5 := by
      simp only [List.length_cons, List.length_append, List.length_nil]
    rw [hlen, show 2 + (p.length + 5) = p.length + 5 + 2 from by omega, drop_cons2,
      List.drop_replicate, show 260 - (p.length + 5) = 255 - p.length from by omega]
  have hgd : (255 :: p.length :: List.replicate 260 (0 : Nat)).getD 1 0 = p.length := rfl
  rw [htake, hdrop, hgd]
  have hzf : zeroFrom ([255, p.length] ++ (o :: (p ++ h1 :: h2 :: t1 :: t2 :: [])) ++
      List.replicate (255 - p.length) 0) (p.length + 7) =
      255 :: p.length :: o :: (p ++ h1 :: h2 :: t1 :: t2 ::
        List.replicate (255 - p.length) 0) := by
    simp only [List.cons_append, List.nil_append, List.append_assoc]
    unfold zeroFrom
    rw [show p.length + 7 = (p.length + 4) + 3 from rfl, take_cons3]
    rw [show (p ++ h1 :: h2 :: t1 :: t2 :: List.replicate (255 - p.length) 0).take
        (p.length + 4) = p ++ [h1, h2, t1, t2] from by rw [List.take_append]; rfl]
    rw [show (255 :: p.length :: o :: (p ++ h1 :: h2 :: t1 :: t2 ::
        List.replicate (255 - p.length) 0)).length - (p.length + 4 + 3) =
        255 - p.length from by
      simp only [List.length_cons, List.length_append, List.length_replicate]
      omega]
    simp [List.append_assoc]
  rw [hzf]

/-- The receive-side CRC validation of parse_response succeeds on a buffer
whose trailing CRC bytes are the CRC recomputed over bytes 1 .. n + 4. -/
theorem parse_response_canonical (n o h1 h2 : Nat) (p : List Nat) (hn : p.length = n) :
    parse_response (255 :: n :: o :: (p ++ h1 :: h2 ::
        (calculate_crc (n :: o :: (p ++ [h1, h2])) >>> 8) ::
        (calculate_crc (n :: o :: (p ++ [h1, h2])) &&& 0xFF) ::
        List.replicate (255 - n) 0)) ≠ ERROR_CORRUPT_RESPONSE := by
  subst hn
  simp only [parse_response, List.getD_cons_succ, List.getD_cons_zero]
  rw [show p.length + 7 - 2 = p.length + 5 from by omega,
    show p.length + 7 - 1 = p.length + 6 from by omega,
    show p.length + 7 - 3 = p.length + 4 from by omega]
  rw [show p.length + 5 = (p.length + 2) + 3 from rfl,
    show p.length + 6 = (p.length + 3) + 3 from rfl, getD_cons3, getD_cons3]
  rw [getD_append_right_off p _ 2, getD_append_right_off p _ 3]
  simp only [List.getD_cons_succ, List.getD_cons_zero, List.drop_succ_cons,
    List.drop_zero]
  rw [show p.length + 4 = (p.length + 2) + 2 from rfl]
  simp only [take_cons2, List.take_append, List.take_succ_cons, List.take_zero]
  rw [if_neg (by simp)]
  repeat' split
  all_goals decide

/-- The byte stream of the amended round trip: the encoded frame followed by
the two big-endian bytes of the CRC recomputed over bytes 1 .. len + 4 of
the frame (the quantity the receive-side validation compares against the
trailing bytes). -/
def c3_stream (o : Nat) (p : List Nat) : List Nat :=
  wire_frame o p ++
    [calculate_crc (((wire_frame o p).drop 1).take (p.length + 4)) >>> 8,
     calculate_crc (((wire_frame o p).drop 1).take (p.length + 4)) &&& 0xFF]

/-- Feeding the amended stream to the incremental decoder from a fresh
zeroed buffer. -/
def c3_result (o : Nat) (p : List Nat) : CheckResult :=
  check (List.replicate MAX_MSG_SIZE 0) 0 true (c3_stream o p)

/-- The content of the amended claim C3: with the two recomputed CRC bytes
appended, the incremental decoder completes a frame carrying the original
length byte, opcode and payload, and the CRC validation of parse_response
succeeds on the assembled buffer. -/
def C3AmendedProp (o : Nat) (p : List Nat) : Prop :=
  (c3_result o p).complete = true ∧
  (c3_result o p).remaining = [] ∧
  (c3_result o p).msg.getD 1 0 = p.length ∧
  (c3_result o p).msg.getD 2 0 = o ∧
  ((c3_result o p).msg.drop 3).take p.length = p ∧
  parse_response (c3_result o p).msg ≠ ERROR_CORRUPT_RESPONSE

/-- C3 amended: the encoder emits len + 5 bytes while the decoders treat a
frame as len + 7 bytes, so decoding exactly the produced bytes yields no
frame; but the produced bytes followed by the two big-endian bytes of the
CRC recomputed over [len, opcode, payload, crc_hi, crc_lo] complete a frame
with the same length byte, opcode and payload bytes, and the CRC validation
of parse_response succeeds on that assembled buffer. -/
theorem C3_roundtrip_amended (o : Nat) (p : List Nat) (hl : p.length ≤ 254) :
    C3AmendedProp o p := by
  have hc2arg : ((wire_frame o p).drop 1).take (p.length + 4) =
      p.length :: o :: (p ++
        [calculate_crc (p.length :: o :: p) >>> 8,
         calculate_crc (p.length :: o :: p) &&& 0xFF]) := by
    simp only [wire_frame, List.cons_append, List.nil_append, List.drop_succ_cons,
      List.drop_zero]
    rw [show p.length + 4 = p.length + 2 + 2 from rfl]
    simp only [take_cons2, List.take_append, List.take_succ_cons, List.take_zero]
  have hstream : c3_stream o p =
      255 :: p.length :: o :: (p ++
        (calculate_crc (p.length :: o :: p) >>> 8) ::
        (calculate_crc (p.length :: o :: p) &&& 0xFF) ::
        (calculate_crc (p.length :: o :: (p ++
          [calculate_crc (p.length :: o :: p) >>> 8,
           calculate_crc (p.length :: o :: p) &&& 0xFF])) >>> 8) ::
        (calculate_crc (p.length :: o :: (p ++
          [calculate_crc (p.length :: o :: p) >>> 8,
           calculate_crc (p.length :: o :: p) &&& 0xFF])) &&& 0xFF) :: []) := by
    unfold c3_stream
    rw [hc2arg]
    simp [wire_frame, List.cons_append, List.nil_append, List.append_assoc]
  unfold C3AmendedProp c3_result
  rw [check_eq_loop, hstream]
  rw [check_stream_canonical p.length o _ _ _ _ p rfl hl]
  refine ⟨rfl, rfl, ?_, ?_, ?_, ?_⟩
  · simp only [List.getD_cons_succ, List.getD_cons_zero]
  · simp only [List.getD_cons_succ, List.getD_cons_zero]
  · show ((255 :: p.length :: o :: (p ++ _)).drop 3).take p.length = p
    simp only [List.drop_succ_cons, List.drop_zero]
    rw [List.take_left]
  · exact parse_response_canonical p.length o _ _ p rfl

/-- Witness for C3 amended at a concrete opcode and payload. -/
theorem C3_roundtrip_amended_witness :
    ([1] : List Nat).length ≤ 254 ∧ C3AmendedProp 5 [1] :=
  ⟨by decide, C3_roundtrip_amended 5 [1] (by decide)⟩

end Claims

end PyRFID
